import Mathlib

/-!
# NPS chaincode: a shallow embedding of `nps_chaincode.go`

The chaincode stores survey records under caller-supplied keys of a key/value
ledger and keeps a list of all record keys under the key `_surveyindex`.

Modelling conventions.

* Go strings and byte slices are modelled as Lean `String`s (sequences of
  Unicode scalar values): arguments reach the chaincode as protobuf strings,
  which are valid UTF-8, so byte level and code point level agree.  A `nil`
  byte slice and an empty one are both the empty string.
* Go's `int` is the 64 bit one.
* The ledger (`shim.ChaincodeStub`) is a record holding the key/value map,
  three failure oracles (one per substrate operation, giving the error a call
  on that key returns, if any) and the log of the substrate calls made so far.
  A get sees the puts and deletes made before it, a get of an absent key
  returns no bytes and no error, and a failed put or delete changes nothing.
* `encoding/json`, `strconv` and `strings` are library code; the parts the
  chaincode calls are modelled below after the Go implementation: the JSON
  scanner and decoder on arbitrary input (input that is not valid JSON leaves
  the target untouched, a value of the wrong type leaves its field or element
  untouched), the encoder for `[]string`, `Atoi`, `Itoa` and `ToLower`.
-/

namespace NPS

set_option maxRecDepth 100000

/-! ## `strconv` -/

/-- Value of a decimal digit. -/
def digitVal (c : Char) : Option Nat :=
  if 48 ≤ c.toNat ∧ c.toNat ≤ 57 then some (c.toNat - 48) else none

/-- Base 10 value of a run of digits, most significant first; `none` when a
character is not a digit. -/
def parseDigits : List Char → Nat → Option Nat
  | [], acc => some acc
  | c :: cs, acc =>
    match digitVal c with
    | some d => parseDigits cs (acc * 10 + d)
    | none => none

/-- Go `strconv.Atoi`: an optional sign, then one or more decimal digits, the
value within the range of a 64 bit `int`.  `none` stands for a non-nil error. -/
def Atoi (s : String) : Option Int :=
  match s.data with
  | [] => none
  | c :: cs =>
    let neg : Bool := c = '-'
    let ds : List Char := if c = '+' ∨ c = '-' then cs else c :: cs
    match ds with
    | [] => none
    | _ :: _ =>
      match parseDigits ds 0 with
      | none => none
      | some n =>
        if neg then (if n > 2 ^ 63 then none else some (-(n : Int)))
        else (if n ≥ 2 ^ 63 then none else some (n : Int))

/-- Decimal digits of a natural number, most significant first. -/
def natDigits : Nat → Nat → List Char
  | 0, _ => []
  | fuel + 1, n =>
    if n < 10 then [Char.ofNat (48 + n)]
    else natDigits fuel (n / 10) ++ [Char.ofNat (48 + n % 10)]

/-- Go `strconv.Itoa`. -/
def Itoa (n : Int) : String :=
  if n < 0 then ⟨'-' :: natDigits (n.natAbs + 1) n.natAbs⟩
  else ⟨natDigits (n.natAbs + 1) n.natAbs⟩

/-! ## `strings` -/

/-- Go `strings.ToLower`, which maps `unicode.ToLower` over the runes of the
string.  The Unicode case table is a parameter of the model. -/
def ToLower (lower : Char → Char) (s : String) : String :=
  ⟨s.data.map lower⟩

/-! ## `encoding/json`: syntax -/

/-- A parsed JSON value.  A number keeps its literal text. -/
inductive JSON where
  | null : JSON
  | bool : Bool → JSON
  | num : List Char → JSON
  | str : List Char → JSON
  | arr : List JSON → JSON
  | obj : List (List Char × JSON) → JSON

/-- The scanner's `isSpace`. -/
def isSpace (c : Char) : Bool :=
  c = ' ' ∨ c = '\t' ∨ c = '\r' ∨ c = '\n'

/-- Drop leading JSON white space. -/
def skipWs : List Char → List Char
  | [] => []
  | c :: cs => if isSpace c then skipWs cs else c :: cs

/-- Value of a hexadecimal digit, either case. -/
def hexVal (c : Char) : Option Nat :=
  if 48 ≤ c.toNat ∧ c.toNat ≤ 57 then some (c.toNat - 48)
  else if 97 ≤ c.toNat ∧ c.toNat ≤ 102 then some (c.toNat - 87)
  else if 65 ≤ c.toNat ∧ c.toNat ≤ 70 then some (c.toNat - 55)
  else none

/-- Go `getu4`: the value of a `\uXXXX` escape at the head of the input. -/
def getu4 : List Char → Option Nat
  | '\\' :: 'u' :: a :: b :: c :: d :: _ =>
    match hexVal a, hexVal b, hexVal c, hexVal d with
    | some x, some y, some z, some w => some (((x * 16 + y) * 16 + z) * 16 + w)
    | _, _, _, _ => none
  | _ => none

/-- The Unicode replacement character. -/
def replacementChar : Char := Char.ofNat 0xFFFD

/-- Go `utf16.IsSurrogate`. -/
def isSurrogate (n : Nat) : Bool := 0xD800 ≤ n ∧ n < 0xE000

/-- Go `utf16.DecodeRune`: the code point of a surrogate pair, the
replacement character for anything else. -/
def decodeSurrogates (hi lo : Nat) : Char :=
  if 0xD800 ≤ hi ∧ hi < 0xDC00 ∧ 0xDC00 ≤ lo ∧ lo < 0xE000 then
    Char.ofNat ((hi - 0xD800) * 1024 + (lo - 0xDC00) + 0x10000)
  else replacementChar

/-- The character a one-letter escape stands for. -/
def simpleEscape (c : Char) : Option Char :=
  if c = '"' then some '"'
  else if c = '\\' then some '\\'
  else if c = '/' then some '/'
  else if c = 'b' then some (Char.ofNat 8)
  else if c = 'f' then some (Char.ofNat 12)
  else if c = 'n' then some '\n'
  else if c = 'r' then some '\r'
  else if c = 't' then some '\t'
  else none

/-- Scan a string literal after its opening quote: the decoded text and the
input after the closing quote.  Follows the scanner (`stateInString` and its
escape states) for what is accepted and `unquoteBytes` for the decoded text.
Every step consumes input, so fuel equal to the input length is enough. -/
def scanString : Nat → List Char → Option (List Char × List Char)
  | 0, _ => none
  | _ + 1, [] => none
  | fuel + 1, c :: cs =>
    if c = '"' then some ([], cs)
    else if c = '\\' then
      match cs with
      | [] => none
      | e :: cs1 =>
        if e = 'u' then
          match getu4 (c :: cs) with
          | none => none
          | some rr =>
            let rest := cs1.drop 4
            if isSurrogate rr then
              match getu4 rest with
              | some rr1 =>
                if decodeSurrogates rr rr1 ≠ replacementChar then
                  (scanString fuel (rest.drop 6)).map
                    (fun p => (decodeSurrogates rr rr1 :: p.1, p.2))
                else
                  (scanString fuel rest).map (fun p => (replacementChar :: p.1, p.2))
              | none =>
                (scanString fuel rest).map (fun p => (replacementChar :: p.1, p.2))
            else
              (scanString fuel rest).map (fun p => (Char.ofNat rr :: p.1, p.2))
        else
          match simpleEscape e with
          | some x => (scanString fuel cs1).map (fun p => (x :: p.1, p.2))
          | none => none
    else if c.toNat < 0x20 then none
    else (scanString fuel cs).map (fun p => (c :: p.1, p.2))

/-- Is the character a decimal digit. -/
def isDigit (c : Char) : Bool := 48 ≤ c.toNat ∧ c.toNat ≤ 57

/-- One or more digits at the head of the input. -/
def scanDigits1 (cs : List Char) : Option (List Char × List Char) :=
  match cs.span isDigit with
  | ([], _) => none
  | (ds, rest) => some (ds, rest)

/-- The integer part of a number: `0`, or a non-zero digit and more digits. -/
def scanIntPart : List Char → Option (List Char × List Char)
  | [] => none
  | c :: cs =>
    if c = '0' then some ([c], cs)
    else if isDigit c then some (c :: (cs.span isDigit).1, (cs.span isDigit).2)
    else none

/-- The optional fraction of a number. -/
def scanFrac : List Char → Option (List Char × List Char)
  | '.' :: cs => (scanDigits1 cs).map (fun p => ('.' :: p.1, p.2))
  | cs => some ([], cs)

/-- The optional exponent of a number. -/
def scanExp : List Char → Option (List Char × List Char)
  | [] => some ([], [])
  | c :: cs =>
    if c = 'e' ∨ c = 'E' then
      match cs with
      | [] => none
      | s :: cs1 =>
        if s = '+' ∨ s = '-' then (scanDigits1 cs1).map (fun p => (c :: s :: p.1, p.2))
        else (scanDigits1 cs).map (fun p => (c :: p.1, p.2))
    else some ([], c :: cs)

/-- Scan a number literal (the scanner's `stateNeg` .. `stateE0`): the
literal text and the input after it. -/
def scanNumber (cs : List Char) : Option (List Char × List Char) :=
  let sign : List Char := match cs with
    | '-' :: _ => ['-']
    | _ => []
  match scanIntPart (cs.drop sign.length) with
  | none => none
  | some (ip, r1) =>
    match scanFrac r1 with
    | none => none
    | some (fp, r2) =>
      match scanExp r2 with
      | none => none
      | some (ep, r3) => some (sign ++ ip ++ fp ++ ep, r3)

mutual
/-- Parse one JSON value, white space before it skipped. -/
def parseValue : Nat → List Char → Option (JSON × List Char)
  | 0, _ => none
  | fuel + 1, cs =>
    match skipWs cs with
    | [] => none
    | c :: r =>
      if c = '"' then
        (scanString r.length r).map (fun p => (JSON.str p.1, p.2))
      else if c = '[' then
        match skipWs r with
        | ']' :: r1 => some (JSON.arr [], r1)
        | _ => (parseElems fuel r).map (fun p => (JSON.arr p.1, p.2))
      else if c = '{' then
        match skipWs r with
        | '}' :: r1 => some (JSON.obj [], r1)
        | _ => (parseMembers fuel r).map (fun p => (JSON.obj p.1, p.2))
      else if c = 't' then
        match r with
        | 'r' :: 'u' :: 'e' :: r1 => some (JSON.bool true, r1)
        | _ => none
      else if c = 'f' then
        match r with
        | 'a' :: 'l' :: 's' :: 'e' :: r1 => some (JSON.bool false, r1)
        | _ => none
      else if c = 'n' then
        match r with
        | 'u' :: 'l' :: 'l' :: r1 => some (JSON.null, r1)
        | _ => none
      else (scanNumber (c :: r)).map (fun p => (JSON.num p.1, p.2))
termination_by structural fuel => fuel
/-- Parse the elements of a non-empty array up to its closing bracket. -/
def parseElems : Nat → List Char → Option (List JSON × List Char)
  | 0, _ => none
  | fuel + 1, cs =>
    match parseValue fuel cs with
    | none => none
    | some (v, r) =>
      match skipWs r with
      | ',' :: r1 => (parseElems fuel r1).map (fun p => (v :: p.1, p.2))
      | ']' :: r1 => some ([v], r1)
      | _ => none
termination_by structural fuel => fuel
/-- Parse the members of a non-empty object up to its closing brace. -/
def parseMembers : Nat → List Char → Option (List (List Char × JSON) × List Char)
  | 0, _ => none
  | fuel + 1, cs =>
    match skipWs cs with
    | '"' :: r =>
      match scanString r.length r with
      | none => none
      | some (k, r1) =>
        match skipWs r1 with
        | ':' :: r2 =>
          match parseValue fuel r2 with
          | none => none
          | some (v, r3) =>
            match skipWs r3 with
            | ',' :: r4 => (parseMembers fuel r4).map (fun p => ((k, v) :: p.1, p.2))
            | '}' :: r4 => some ([(k, v)], r4)
            | _ => none
        | _ => none
    | _ => none
termination_by structural fuel => fuel
end

/-- Parse a whole document: one value, white space around it, nothing else
(`checkValid`).  Each nesting level and each element costs at most two units
of fuel per character read. -/
def parseJSON (data : String) : Option JSON :=
  match parseValue (2 * data.data.length + 2) data.data with
  | none => none
  | some (v, rest) => if skipWs rest = [] then some v else none

/-! ## `encoding/json`: decoding into the chaincode's types -/

/-- The record stored under a survey key.  The Go field `Survey` is `Survey_`
here, a structure and its field not sharing a name. -/
structure Survey where
  Key : String
  Survey_ : String
  Customer : String
  Score : String
  Feedback : String
  SubmittedDate : String
deriving DecidableEq, Repr

/-- The value of `Survey{}`. -/
def Survey.zero : Survey := ⟨"", "", "", "", "", ""⟩

/-- The JSON names of the fields of `Survey`, in declaration order. -/
def surveyFieldNames : List (List Char) :=
  ["key".data, "survey".data, "customer".data, "score".data, "feedback".data,
   "submitteddate".data]

/-- Clear bit 5 of a byte (`b & caseMask`). -/
def clearCaseBit (n : Nat) : Nat := if n / 32 % 2 = 1 then n - 32 else n

/-- Go `equalFoldRight`, the case-insensitive match of a field name `s` made
of ASCII letters against an object key `t`: letters match in either case, and
the Kelvin sign and the long s match `k` and `s`. -/
def equalFoldRight : List Char → List Char → Bool
  | [], t => t.isEmpty
  | _ :: _, [] => false
  | sb :: s, tb :: t =>
    if tb.toNat < 0x80 then
      if sb = tb then equalFoldRight s t
      else if 65 ≤ clearCaseBit sb.toNat ∧ clearCaseBit sb.toNat ≤ 90 then
        if clearCaseBit sb.toNat = clearCaseBit tb.toNat then equalFoldRight s t else false
      else false
    else if sb = 's' ∨ sb = 'S' then
      if tb.toNat = 0x17F then equalFoldRight s t else false
    else if sb = 'k' ∨ sb = 'K' then
      if tb.toNat = 0x212A then equalFoldRight s t else false
    else false

/-- The field an object key selects: the exactly matching name if there is
one, else the first name matching case-insensitively. -/
def findField (names : List (List Char)) (key : List Char) : Option Nat :=
  match names.indexOf? key with
  | some i => some i
  | none =>
    match names.findIdx? (fun n => equalFoldRight n key) with
    | some i => some i
    | none => none

/-- Store a JSON value into the field of `Survey` with the given position.
All six fields are Go strings: a JSON string is stored, any other value
(number, literal, array, object) leaves the field as it was. -/
def Survey.setField (res : Survey) (i : Nat) (v : JSON) : Survey :=
  match v with
  | JSON.str s =>
    match i with
    | 0 => { res with Key := ⟨s⟩ }
    | 1 => { res with Survey_ := ⟨s⟩ }
    | 2 => { res with Customer := ⟨s⟩ }
    | 3 => { res with Score := ⟨s⟩ }
    | 4 => { res with Feedback := ⟨s⟩ }
    | 5 => { res with SubmittedDate := ⟨s⟩ }
    | _ => res
  | _ => res

/-- Go `json.Unmarshal(data, &res)` for `res` of type `Survey`.  Input that is
not valid JSON leaves `res` as it was; an object sets the fields its keys
select, in order; any other value leaves `res` as it was. -/
def unmarshalSurvey (data : String) (res : Survey) : Survey :=
  match parseJSON data with
  | some (JSON.obj members) =>
    members.foldl
      (fun r m =>
        match findField surveyFieldNames m.1 with
        | some i => r.setField i m.2
        | none => r)
      res
  | _ => res

/-- A Go `[]string`: `none` is the nil slice. -/
abbrev StringSlice := Option (List String)

/-- The elements of a slice; the nil slice has none. -/
def StringSlice.elems (s : StringSlice) : List String := s.getD []

/-- Go `append(s, x)`. -/
def StringSlice.append (s : StringSlice) (x : String) : StringSlice :=
  some (s.elems ++ [x])

/-- The Go string an array element decodes to: the text of a JSON string, the
zero value for any other element. -/
def elemString : JSON → String
  | JSON.str s => ⟨s⟩
  | _ => ""

/-- Go `json.Unmarshal(data, &v)` for a nil `v` of type `[]string`.  An array
gives a slice of its elements, everything else (invalid input, `null`, a value
of another type) leaves the slice nil. -/
def unmarshalStrings (data : String) : StringSlice :=
  match parseJSON data with
  | some (JSON.arr elems) => some (elems.map elemString)
  | _ => none

/-! ## `encoding/json`: encoding -/

/-- A digit of `"0123456789abcdef"`. -/
def hexDigit (n : Nat) : Char :=
  if n < 10 then Char.ofNat (48 + n) else Char.ofNat (87 + n)

/-- The encoding of one character inside a string literal
(`encodeState.string`, HTML escaping on). -/
def escapeChar (c : Char) : List Char :=
  if c.toNat < 0x80 then
    if 0x20 ≤ c.toNat ∧ c ≠ '\\' ∧ c ≠ '"' ∧ c ≠ '<' ∧ c ≠ '>' ∧ c ≠ '&' then [c]
    else if c = '\\' ∨ c = '"' then ['\\', c]
    else if c = '\n' then ['\\', 'n']
    else if c = '\r' then ['\\', 'r']
    else if c = '\t' then ['\\', 't']
    else ['\\', 'u', '0', '0', hexDigit (c.toNat / 16), hexDigit (c.toNat % 16)]
  else if c.toNat = 0x2028 ∨ c.toNat = 0x2029 then
    ['\\', 'u', '2', '0', '2', hexDigit (c.toNat % 16)]
  else [c]

/-- The body of a string literal. -/
def escapeString : List Char → List Char
  | [] => []
  | c :: cs => escapeChar c ++ escapeString cs

/-- The loop of the array encoder from element `i` on: a comma before every
element but the first, then the closing bracket. -/
def encodeElems : Nat → List String → List Char
  | _, [] => [']']
  | i, x :: rest =>
    (if i > 0 then [','] else []) ++
      ('"' :: (escapeString x.data ++ '"' :: encodeElems (i + 1) rest))

/-- Go `json.Marshal(v)` for `v` of type `[]string` (it does not fail): `null`
for the nil slice, an array of string literals otherwise. -/
def marshalStrings : StringSlice → String
  | none => "null"
  | some l => ⟨'[' :: encodeElems 0 l⟩

/-! ## The ledger -/

/-- A call on the substrate. -/
inductive Call where
  | get : String → Call
  | put : String → String → Call
  | del : String → Call
deriving DecidableEq, Repr

/-- The ledger as the chaincode sees it (`shim.ChaincodeStub`). -/
structure ChaincodeStub where
  /-- the value stored under each key, if any -/
  state : String → Option String
  /-- the error `GetState` returns for a key, if it fails -/
  getErr : String → Option String
  /-- the error `PutState` returns for a key, if it fails -/
  putErr : String → Option String
  /-- the error `DelState` returns for a key, if it fails -/
  delErr : String → Option String
  /-- the substrate calls made so far, oldest first -/
  log : List Call

/-- No substrate call fails. -/
def ChaincodeStub.reliable (stub : ChaincodeStub) : Prop :=
  ∀ k, stub.getErr k = none ∧ stub.putErr k = none ∧ stub.delErr k = none

/-- A ledger with the given contents, no failures and an empty log. -/
def ChaincodeStub.ofState (m : String → Option String) : ChaincodeStub :=
  ⟨m, fun _ => none, fun _ => none, fun _ => none, []⟩

/-- Go `stub.GetState(key)`: the bytes under the key, empty when it is
absent, or an error. -/
def GetState (stub : ChaincodeStub) (key : String) : Except String String × ChaincodeStub :=
  let stub1 := { stub with log := stub.log ++ [Call.get key] }
  match stub.getErr key with
  | some e => (Except.error e, stub1)
  | none => (Except.ok ((stub.state key).getD ""), stub1)

/-- Go `stub.PutState(key, value)`: the error, if any, and the ledger after. -/
def PutState (stub : ChaincodeStub) (key value : String) : Option String × ChaincodeStub :=
  let stub1 := { stub with log := stub.log ++ [Call.put key value] }
  match stub.putErr key with
  | some e => (some e, stub1)
  | none => (none, { stub1 with state := fun k => if k = key then some value else stub.state k })

/-- Go `stub.DelState(key)`: the error, if any, and the ledger after. -/
def DelState (stub : ChaincodeStub) (key : String) : Option String × ChaincodeStub :=
  let stub1 := { stub with log := stub.log ++ [Call.del key] }
  match stub.delErr key with
  | some e => (some e, stub1)
  | none => (none, { stub1 with state := fun k => if k = key then none else stub.state k })

/-! ## The chaincode (`v6/nps_chaincode.go`) -/

/-- What a chaincode function returns, `([]byte, error)`: the payload, or the
message of a non-nil error. -/
abbrev Result := Except String String

/-- The key under which the list of all survey keys is stored. -/
def surveyIndexStr : String := "_surveyindex"

/-- Go `Init`: write the test key `abc`, an empty index and an empty list of
open trades.  The constant `openTradesStr` and the type `AllTrades` are declared
in no file of the repository, so the key of the open trades and the encoding
`emptyTrades` of the zero `AllTrades` are parameters. -/
def Init (openTradesStr emptyTrades : String) (stub : ChaincodeStub) (args : List String) :
    Result × ChaincodeStub :=
  match args with
  | [a0] =>
    match Atoi a0 with
    | none => (Except.error "Expecting integer value for asset holding", stub)
    | some Aval =>
      match PutState stub "abc" (Itoa Aval) with
      | (some err, stub1) => (Except.error err, stub1)
      | (none, stub1) =>
        let empty : StringSlice := none
        match PutState stub1 surveyIndexStr (marshalStrings empty) with
        | (some err, stub2) => (Except.error err, stub2)
        | (none, stub2) =>
          match PutState stub2 openTradesStr emptyTrades with
          | (some err, stub3) => (Except.error err, stub3)
          | (none, stub3) => (Except.ok "", stub3)
  | _ => (Except.error "Incorrect number of arguments. Expecting 1", stub)

/-- Go `read`: the bytes stored under a key. -/
def read (stub : ChaincodeStub) (args : List String) : Result × ChaincodeStub :=
  match args with
  | [key] =>
    match GetState stub key with
    | (Except.error _, stub1) =>
      (Except.error ("\x7b\"Error\":\"Failed to get state for " ++ key ++ "\"\x7d"), stub1)
    | (Except.ok valAsbytes, stub1) => (Except.ok valAsbytes, stub1)
  | _ => (Except.error "Incorrect number of arguments. Expecting key of the var to query", stub)

/-- The loop of `Delete` over the index: `seen` is `surveyIndex[:i]`, the
second list `surveyIndex[i:]`.  At the first entry equal to the key the slice
becomes `append(surveyIndex[:i], surveyIndex[i+1:]...)` and the loop ends. -/
def removeLoop (key : String) : List String → List String → List String
  | seen, [] => seen
  | seen, val :: rest =>
    if val = key then seen ++ rest else removeLoop key (seen ++ [val]) rest

/-- Go `Delete`: remove a key from the ledger and from the index. -/
def Delete (stub : ChaincodeStub) (args : List String) : Result × ChaincodeStub :=
  match args with
  | [key] =>
    match DelState stub key with
    | (some _, stub1) => (Except.error "Failed to delete state", stub1)
    | (none, stub1) =>
      match GetState stub1 surveyIndexStr with
      | (Except.error _, stub2) => (Except.error "Failed to get survey index", stub2)
      | (Except.ok surveysAsBytes, stub2) =>
        let surveyIndex : StringSlice := unmarshalStrings surveysAsBytes
        let surveyIndex : StringSlice := surveyIndex.map (removeLoop key [])
        let jsonAsBytes := marshalStrings surveyIndex
        let stub3 := (PutState stub2 surveyIndexStr jsonAsBytes).2
        (Except.ok "", stub3)
  | _ => (Except.error "Incorrect number of arguments. Expecting 1", stub)

/-- The JSON text `init_survey` builds for a record by concatenation. -/
def surveyJSON (key survey customer : String) (score : Int) (feedback submitteddate : String) :
    String :=
  "\x7b\"key\": \"" ++ key ++ "\", \"survey\": \"" ++ survey ++ "\", \"customer\": \"" ++ customer
    ++ "\", \"score\": " ++ Itoa score ++ ", \"feedback\": \"" ++ feedback
    ++ "\", \"submitteddate\": \"" ++ submitteddate ++ "\"\x7d"

/-- Go `init_survey`: create a survey record and add its key to the index.
`lower` is the Unicode lower-case mapping behind `strings.ToLower`. -/
def init_survey (lower : Char → Char) (stub : ChaincodeStub) (args : List String) :
    Result × ChaincodeStub :=
  match args with
  | [a0, a1, a2, a3, a4, a5] =>
    if a0.length ≤ 0 then (Except.error "1st argument must be a non-empty string", stub)
    else if a1.length ≤ 0 then (Except.error "2nd argument must be a non-empty string", stub)
    else if a2.length ≤ 0 then (Except.error "3rd argument must be a non-empty string", stub)
    else if a3.length ≤ 0 then (Except.error "4th argument must be a non-empty string", stub)
    else if a4.length ≤ 0 then (Except.error "5th argument must be a non-empty string", stub)
    else if a5.length ≤ 0 then (Except.error "6th argument must be a non-empty string", stub)
    else
      let key := a0
      let survey := ToLower lower a1
      let customer := ToLower lower a2
      let feedback := ToLower lower a4
      let submitteddate := ToLower lower a5
      match Atoi a3 with
      | none => (Except.error "3rd argument must be a numeric string", stub)
      | some score =>
        match GetState stub key with
        | (Except.error _, stub1) => (Except.error "Failed to get survey key", stub1)
        | (Except.ok surveyAsBytes, stub1) =>
          let res := unmarshalSurvey surveyAsBytes Survey.zero
          if res.Key = key then (Except.error "This survey arleady exists", stub1)
          else
            let str := surveyJSON key survey customer score feedback submitteddate
            match PutState stub1 key str with
            | (some err, stub2) => (Except.error err, stub2)
            | (none, stub2) =>
              match GetState stub2 surveyIndexStr with
              | (Except.error _, stub3) => (Except.error "Failed to get survey index", stub3)
              | (Except.ok surveysAsBytes, stub3) =>
                let surveyIndex : StringSlice := unmarshalStrings surveysAsBytes
                let surveyIndex : StringSlice := surveyIndex.append key
                let jsonAsBytes := marshalStrings surveyIndex
                let stub4 := (PutState stub3 surveyIndexStr jsonAsBytes).2
                (Except.ok "", stub4)
  | _ => (Except.error "Incorrect number of arguments. Expecting 6", stub)

/-- Go `Write`: store a value under a key, whatever the key. -/
def Write (stub : ChaincodeStub) (args : List String) : Result × ChaincodeStub :=
  match args with
  | [key, value] =>
    match PutState stub key value with
    | (some err, stub1) => (Except.error err, stub1)
    | (none, stub1) => (Except.ok "", stub1)
  | _ =>
    (Except.error
      "Incorrect number of arguments. Expecting 2. key of the variable and value to set", stub)

/-- Go `Invoke`: route an invocation by its function name.  After `Delete` it
calls `cleanTrades(stub)` and drops what that returns; `cleanTrades` is
declared in no file of the repository, so its effect on the ledger is a
parameter. -/
def Invoke (lower : Char → Char) (openTradesStr emptyTrades : String)
    (cleanTrades : ChaincodeStub → ChaincodeStub) (stub : ChaincodeStub) (function : String)
    (args : List String) : Result × ChaincodeStub :=
  if function = "init" then Init openTradesStr emptyTrades stub args
  else if function = "delete" then
    let r := Delete stub args
    (r.1, cleanTrades r.2)
  else if function = "write" then Write stub args
  else if function = "read" then read stub args
  else if function = "init_survey" then init_survey lower stub args
  else (Except.error "Received unknown function invocation", stub)

/-- Go `Query`: route a query by its function name. -/
def Query (stub : ChaincodeStub) (function : String) (args : List String) :
    Result × ChaincodeStub :=
  if function = "read" then read stub args
  else (Except.error "Received unknown function query", stub)

/-- The index as a reader of the ledger sees it: the list decoded from the
bytes under the index key. -/
def loadIndex (stub : ChaincodeStub) : List String :=
  (unmarshalStrings ((stub.state surveyIndexStr).getD "")).elems

/-! ## The chaincode, marble variant (`nps_chaincode.go`)

The file at the root of the repository is the variant the survey chaincode was
derived from.  Its `read`, `Write` and `Query` are those above up to the
wording of two messages, its `Init` writes no open trades, and its `Invoke`
routes `init`, `write` and `init_marble` only. -/

namespace Marbles

/-- What a call ends in: it returns, or the Go runtime panics on a slice index
out of range (the index and the length of the slice). -/
inductive Outcome where
  | returned : Result → Outcome
  | indexOutOfRange : Nat → Nat → Outcome

/-- The key under which the list of all marble ids is stored. -/
def marbleIndexStr : String := "_marbleindex"

/-- The record stored under a marble id. -/
structure Marble where
  Id : String
  Survey_Id : String
  Customer_Id : String
  Score : Int
  Feedback : String
  Submitted_Date : String
deriving DecidableEq, Repr

/-- The value of `Marble{}`. -/
def Marble.zero : Marble := ⟨"", "", "", 0, "", ""⟩

/-- The JSON names of the fields of `Marble`, in declaration order. -/
def marbleFieldNames : List (List Char) :=
  ["Id".data, "Survey_Id".data, "Customer_Id".data, "Score".data, "Feedback".data,
   "Submitted_Date".data]

/-- Go `simpleLetterEqualFold`, the case-insensitive match for a field name
made of ASCII letters other than `k` and `s`: same length, and the characters
equal once bit 5 is cleared. -/
def simpleLetterEqualFold : List Char → List Char → Bool
  | [], [] => true
  | sb :: s, tb :: t =>
    if tb.toNat < 0x80 ∧ clearCaseBit sb.toNat = clearCaseBit tb.toNat then
      simpleLetterEqualFold s t
    else false
  | _, _ => false

/-- The fold function `encoding/json` picks for each field of `Marble`:
`simpleLetterEqualFold` for `Id`, `equalFoldRight` for the other names, which
hold an `s` or a `k`. -/
def marbleFold (name key : List Char) : Bool :=
  if name = "Id".data then simpleLetterEqualFold name key else equalFoldRight name key

/-- The field of `Marble` an object key selects: the exactly matching name if
there is one, else the first name matching case-insensitively. -/
def findMarbleField (key : List Char) : Option Nat :=
  match marbleFieldNames.indexOf? key with
  | some i => some i
  | none =>
    match marbleFieldNames.findIdx? (fun n => marbleFold n key) with
    | some i => some i
    | none => none

/-- Store a JSON value into the field of `Marble` with the given position: a
JSON string into a string field, a number that `strconv.ParseInt` accepts
into `Score`; any other value leaves the field as it was. -/
def Marble.setField (res : Marble) (i : Nat) (v : JSON) : Marble :=
  match v with
  | JSON.str s =>
    match i with
    | 0 => { res with Id := ⟨s⟩ }
    | 1 => { res with Survey_Id := ⟨s⟩ }
    | 2 => { res with Customer_Id := ⟨s⟩ }
    | 4 => { res with Feedback := ⟨s⟩ }
    | 5 => { res with Submitted_Date := ⟨s⟩ }
    | _ => res
  | JSON.num lit =>
    match i with
    | 3 =>
      match Atoi ⟨lit⟩ with
      | some n => { res with Score := n }
      | none => res
    | _ => res
  | _ => res

/-- Go `json.Unmarshal(data, &res)` for `res` of type `Marble`. -/
def unmarshalMarble (data : String) (res : Marble) : Marble :=
  match parseJSON data with
  | some (JSON.obj members) =>
    members.foldl
      (fun r m =>
        match findMarbleField m.1 with
        | some i => r.setField i m.2
        | none => r)
      res
  | _ => res

/-- The JSON text `init_marble` builds for a record by concatenation. -/
def marbleJSON (Id Survey_Id Customer_Id : String) (Score : Int)
    (Feedback Submitted_Date : String) : String :=
  "\x7b\"Id\": \"" ++ Id ++ "\", \"Survey_Id\": \"" ++ Survey_Id ++ "\", \"Customer_Id\": \""
    ++ Customer_Id ++ "\", \"Score\": " ++ Itoa Score ++ ", \"Feedback\": \"" ++ Feedback
    ++ "\", \"Submitted_Date\": \"" ++ Submitted_Date ++ "\"\x7d"

/-- Go `args[i]`: the element, or a panic on an index out of range. -/
def index (args : List String) (i : Nat) (stub : ChaincodeStub)
    (k : String → Outcome × ChaincodeStub) : Outcome × ChaincodeStub :=
  match args.get? i with
  | some a => k a
  | none => (Outcome.indexOutOfRange i args.length, stub)

/-- The part of `init_marble` after the checks of its arguments.  The source
names the last value `Submitted_Date` where it declared `Created_Date`; the
model reads the declared value. -/
def storeMarble (lower : Char → Char) (stub : ChaincodeStub) (a0 a1 a2 a3 a4 a5 : String) :
    Result × ChaincodeStub :=
  let Id := a0
  let Survey_Id := ToLower lower a1
  let Customer_Id := ToLower lower a2
  let Feedback := ToLower lower a4
  let Created_Date := ToLower lower a5
  match Atoi a3 with
  | none => (Except.error "3rd argument must be a numeric string", stub)
  | some Score =>
    match GetState stub Id with
    | (Except.error _, stub1) => (Except.error "Failed to get marble Id", stub1)
    | (Except.ok marbleAsBytes, stub1) =>
      let res := unmarshalMarble marbleAsBytes Marble.zero
      if res.Id = Id then (Except.error "This marble arleady exists", stub1)
      else
        let str := marbleJSON Id Survey_Id Customer_Id Score Feedback Created_Date
        match PutState stub1 Id str with
        | (some err, stub2) => (Except.error err, stub2)
        | (none, stub2) =>
          match GetState stub2 marbleIndexStr with
          | (Except.error _, stub3) => (Except.error "Failed to get marble index", stub3)
          | (Except.ok marblesAsBytes, stub3) =>
            let marbleIndex : StringSlice := unmarshalStrings marblesAsBytes
            let marbleIndex : StringSlice := marbleIndex.append Id
            let jsonAsBytes := marshalStrings marbleIndex
            let stub4 := (PutState stub3 marbleIndexStr jsonAsBytes).2
            (Except.ok "", stub4)

/-- Go `init_marble`: the length check compares with 5, then the six
arguments `args[0]` .. `args[5]` are read in turn. -/
def init_marble (lower : Char → Char) (stub : ChaincodeStub) (args : List String) :
    Outcome × ChaincodeStub :=
  let fail (msg : String) : Outcome × ChaincodeStub :=
    (Outcome.returned (Except.error msg), stub)
  if args.length ≠ 5 then fail "Incorrect number of arguments. Expecting 6"
  else
    index args 0 stub fun a0 =>
    if a0.length ≤ 0 then fail "1st argument must be a non-empty string" else
    index args 1 stub fun a1 =>
    if a1.length ≤ 0 then fail "2nd argument must be a non-empty string" else
    index args 2 stub fun a2 =>
    if a2.length ≤ 0 then fail "3rd argument must be a non-empty string" else
    index args 3 stub fun a3 =>
    if a3.length ≤ 0 then fail "4th argument must be a non-empty string" else
    index args 4 stub fun a4 =>
    if a4.length ≤ 0 then fail "5th argument must be a non-empty string" else
    index args 5 stub fun a5 =>
    if a5.length ≤ 0 then fail "6th argument must be a non-empty string" else
    let r := storeMarble lower stub a0 a1 a2 a3 a4 a5
    (Outcome.returned r.1, r.2)

end Marbles

/-! ## The ledger after an operation that met no failure -/

/-- The ledger `Delete` leaves behind when no substrate call fails. -/
def deleteResult (stub : ChaincodeStub) (key : String) : ChaincodeStub :=
  let st1 : String → Option String := fun k => if k = key then none else stub.state k
  let index : StringSlice :=
    (unmarshalStrings ((st1 surveyIndexStr).getD "")).map (fun l => l.erase key)
  { stub with
    state := fun k => if k = surveyIndexStr then some (marshalStrings index) else st1 k
    log := stub.log ++ [Call.del key, Call.get surveyIndexStr,
      Call.put surveyIndexStr (marshalStrings index)] }

/-- The ledger `init_survey` leaves behind when it succeeds and no substrate
call fails. -/
def createResult (stub : ChaincodeStub) (key str : String) : ChaincodeStub :=
  let st1 : String → Option String := fun k => if k = key then some str else stub.state k
  let index : StringSlice := (unmarshalStrings ((st1 surveyIndexStr).getD "")).append key
  { stub with
    state := fun k => if k = surveyIndexStr then some (marshalStrings index) else st1 k
    log := stub.log ++ [Call.get key, Call.put key str, Call.get surveyIndexStr,
      Call.put surveyIndexStr (marshalStrings index)] }

/-! ## Concrete ledgers and argument lists -/

/-- The message of the duplicate error. -/
def duplicateError : String := "This survey arleady exists"

/-- The messages with which `init_survey` rejects its arguments. -/
def validationErrors : List String :=
  ["Incorrect number of arguments. Expecting 6",
   "1st argument must be a non-empty string",
   "2nd argument must be a non-empty string",
   "3rd argument must be a non-empty string",
   "4th argument must be a non-empty string",
   "5th argument must be a non-empty string",
   "6th argument must be a non-empty string",
   "3rd argument must be a numeric string"]

/-- A ledger that holds nothing and does not fail. -/
def emptyLedger : ChaincodeStub := ChaincodeStub.ofState (fun _ => none)

/-- A ledger that holds only an index, and does not fail. -/
def indexLedger (index : String) : ChaincodeStub :=
  ChaincodeStub.ofState (fun k => if k = surveyIndexStr then some index else none)

/-- The arguments of the scenario of the specification. -/
def scenarioArgs : List String := ["m1", "SurveyA", "cust1", "7", "great", "2024-01-01"]

/-- Valid arguments whose key is a double quote. -/
def quoteArgs : List String := ["\"", "SurveyA", "cust1", "7", "great", "2024-01-01"]

/-- Valid arguments whose key is the index key. -/
def indexKeyArgs : List String := ["_surveyindex", "SurveyA", "cust1", "7", "great", "2024-01-01"]

/-- The ledger after `Init` on the empty one, the open trades under
`_opentrades`. -/
def initLedger : ChaincodeStub :=
  (Init "_opentrades" "\x7b\"open_trades\":null\x7d" emptyLedger ["1"]).2

/-- The ledger after the scenario record is created on the initialised one. -/
def scenarioLedger : ChaincodeStub :=
  (init_survey Char.toLower initLedger scenarioArgs).2

/-- An empty ledger on which every put of the index key fails and nothing
else does. -/
def indexPutFails : ChaincodeStub :=
  { emptyLedger with
    putErr := fun k => if k = surveyIndexStr then some "put failed" else none }

/-- Six non-empty arguments whose score is no integer. -/
def wordScoreArgs : List String := ["m1", "SurveyA", "cust1", "seven", "great", "2024-01-01"]

/-- Six arguments whose score is empty. -/
def emptyScoreArgs : List String := ["m1", "SurveyA", "cust1", "", "great", "2024-01-01"]

/-- Five non-empty arguments. -/
def fiveArgs : List String := ["m1", "SurveyA", "cust1", "7", "great"]

/-- The function names `Invoke` routes. -/
def invokeNames : List String := ["init", "delete", "write", "read", "init_survey"]

/-- Valid arguments whose key is the test key of `Init`. -/
def abcArgs : List String := ["abc", "SurveyA", "cust1", "7", "great", "2024-01-01"]

/-- The ledger after a record is created under `abc` on the empty one. -/
def abcLedger : ChaincodeStub := (init_survey Char.toLower emptyLedger abcArgs).2

/-! ## The JSON codec: decoding an encoded slice -/

theorem hexVal_hexDigit (n : Nat) (h : n < 16) : hexVal (hexDigit n) = some n := by
  interval_cases n <;> decide

theorem scanString_plain (c : Char) (fuel : Nat) (tl : List Char)
    (h1 : c ≠ '"') (h2 : c ≠ '\\') (h3 : ¬ c.toNat < 0x20) :
    scanString (fuel + 1) (c :: tl) = (scanString fuel tl).map (fun p => (c :: p.1, p.2)) := by
  simp [scanString, h1, h2, h3]

theorem scanString_simple (e x : Char) (fuel : Nat) (tl : List Char)
    (h1 : e ≠ 'u') (h2 : simpleEscape e = some x) :
    scanString (fuel + 1) ('\\' :: e :: tl) = (scanString fuel tl).map (fun p => (x :: p.1, p.2)) := by
  simp [scanString, h1, h2]

theorem scanString_u (a b c d : Char) (n : Nat) (fuel : Nat) (tl : List Char)
    (h1 : getu4 ('\\' :: 'u' :: a :: b :: c :: d :: tl) = some n) (h2 : isSurrogate n = false) :
    scanString (fuel + 1) ('\\' :: 'u' :: a :: b :: c :: d :: tl)
      = (scanString fuel tl).map (fun p => (Char.ofNat n :: p.1, p.2)) := by
  simp [scanString, h1, h2]


theorem scanString_escapeChar (c : Char) (fuel : Nat) (tl : List Char) :
    scanString (fuel + 1) (escapeChar c ++ tl)
      = (scanString fuel tl).map (fun p => (c :: p.1, p.2)) := by
  unfold escapeChar
  by_cases hlt : c.toNat < 0x80
  · rw [if_pos hlt]
    by_cases hsafe : 0x20 ≤ c.toNat ∧ c ≠ '\\' ∧ c ≠ '"' ∧ c ≠ '<' ∧ c ≠ '>' ∧ c ≠ '&'
    · rw [if_pos hsafe]
      exact scanString_plain c fuel tl hsafe.2.2.1 hsafe.2.1 (by omega)
    · rw [if_neg hsafe]
      by_cases hq : c = '\\' ∨ c = '"'
      · rw [if_pos hq]
        rcases hq with h | h <;> subst h <;> exact scanString_simple _ _ fuel tl (by decide) (by decide)
      · rw [if_neg hq]
        by_cases hn : c = '\n'
        · subst hn; exact scanString_simple 'n' _ fuel tl (by decide) (by decide)
        · rw [if_neg hn]
          by_cases hr : c = '\r'
          · subst hr; exact scanString_simple 'r' _ fuel tl (by decide) (by decide)
          · rw [if_neg hr]
            by_cases ht : c = '\t'
            · subst ht; exact scanString_simple 't' _ fuel tl (by decide) (by decide)
            · rw [if_neg ht]
              have hd : c.toNat / 16 < 16 := by omega
              have hm : c.toNat % 16 < 16 := by omega
              have hg : getu4 ('\\' :: 'u' :: '0' :: '0' :: hexDigit (c.toNat / 16)
                  :: hexDigit (c.toNat % 16) :: tl) = some c.toNat := by
                simp only [getu4, hexVal_hexDigit _ hd, hexVal_hexDigit _ hm]
                have : hexVal '0' = some 0 := by decide
                simp only [this]
                congr 1; omega
              have hs : isSurrogate c.toNat = false := by
                simp [isSurrogate]; omega
              have := scanString_u '0' '0' _ _ c.toNat fuel tl hg hs
              simpa [Char.ofNat_toNat] using this
  · rw [if_neg hlt]
    by_cases hls : c.toNat = 0x2028 ∨ c.toNat = 0x2029
    · rw [if_pos hls]
      have hc : c = Char.ofNat c.toNat := (Char.ofNat_toNat c).symm
      rcases hls with h | h <;> rw [h] at hc <;> subst hc <;>
        simp [scanString, getu4, hexVal, hexDigit, isSurrogate]
    · rw [if_neg hls]
      refine scanString_plain c fuel tl ?_ ?_ (by omega)
      · intro h; subst h; revert hlt; decide
      · intro h; subst h; revert hlt; decide


theorem scanString_escapeString (s rest : List Char) :
    ∀ fuel, s.length < fuel → scanString fuel (escapeString s ++ '"' :: rest) = some (s, rest) := by
  induction s with
  | nil =>
    intro fuel h
    obtain ⟨f, rfl⟩ : ∃ f, fuel = f + 1 := ⟨fuel - 1, by omega⟩
    simp [escapeString, scanString]
  | cons c s ih =>
    intro fuel h
    obtain ⟨f, rfl⟩ : ∃ f, fuel = f + 1 := ⟨fuel - 1, by omega⟩
    have hf : s.length < f := by simpa using h
    simp only [escapeString, List.append_assoc]
    rw [scanString_escapeChar, ih f hf]
    rfl

theorem escapeChar_length_pos (c : Char) : 1 ≤ (escapeChar c).length := by
  unfold escapeChar
  split_ifs <;> simp

theorem length_le_escapeString (s : List Char) : s.length ≤ (escapeString s).length := by
  induction s with
  | nil => simp [escapeString]
  | cons c s ih =>
    have := escapeChar_length_pos c
    simp only [escapeString, List.length_cons, List.length_append]
    omega

/-- A quoted string at the head of the input parses to that string. -/
theorem parseValue_quoted (s rest : List Char) (fuel : Nat) :
    parseValue (fuel + 1) ('"' :: (escapeString s ++ '"' :: rest)) = some (JSON.str s, rest) := by
  have h2 : scanString ((escapeString s).length + (rest.length + 1))
      (escapeString s ++ '"' :: rest) = some (s, rest) :=
    scanString_escapeString s rest _ (by have := length_le_escapeString s; omega)
  simp [parseValue, skipWs, isSpace, h2]

theorem parseElems_succ (fuel : Nat) (cs : List Char) :
    parseElems (fuel + 1) cs =
      match parseValue fuel cs with
      | none => none
      | some (v, r) =>
        match skipWs r with
        | ',' :: r1 => (parseElems fuel r1).map (fun p => (v :: p.1, p.2))
        | ']' :: r1 => some ([v], r1)
        | _ => none := by
  rw [parseElems]

theorem parseElems_encodeElems (l : List String) (rest : List Char) :
    ∀ (x : String) (i fuel : Nat), l.length + 2 ≤ fuel →
      parseElems fuel ('"' :: (escapeString x.data ++ '"' :: (encodeElems (i + 1) l ++ rest)))
        = some ((x :: l).map (fun y => JSON.str y.data), rest) := by
  induction l with
  | nil =>
    intro x i fuel h
    obtain ⟨f, rfl⟩ : ∃ f, fuel = f + 2 := ⟨fuel - 2, by omega⟩
    rw [parseElems_succ, parseValue_quoted]
    simp [encodeElems, skipWs, isSpace]
  | cons y l ih =>
    intro x i fuel h
    obtain ⟨f, rfl⟩ : ∃ f, fuel = f + 2 := ⟨fuel - 2, by omega⟩
    have hf : l.length + 2 ≤ f + 1 := by simpa using h
    rw [parseElems_succ, parseValue_quoted]
    have hc : isSpace ',' = false := by decide
    simp only [encodeElems, Nat.succ_pos, if_true, gt_iff_lt, List.cons_append, List.nil_append,
      List.append_assoc, skipWs, hc, Bool.false_eq_true, if_false]
    rw [ih y (i + 1) (f + 1) hf]
    simp

theorem length_le_encodeElems (l : List String) : ∀ i, l.length ≤ (encodeElems i l).length := by
  induction l with
  | nil => intro i; simp
  | cons x l ih =>
    intro i
    have := ih (i + 1)
    simp only [encodeElems, List.length_cons, List.length_append]
    omega

/-- Decoding the encoding of a slice of strings gives the slice back. -/
theorem unmarshalStrings_marshalStrings (sl : StringSlice) :
    unmarshalStrings (marshalStrings sl) = sl := by
  cases sl with
  | none => decide
  | some l =>
    cases l with
    | nil => decide
    | cons x l =>
      have hlen := length_le_encodeElems l (0 + 1)
      have hp := parseElems_encodeElems l [] x 0
        (2 * ('[' :: encodeElems 0 (x :: l)).length + 1)
        (by simp only [encodeElems, List.length_cons, List.length_append]; omega)
      simp only [List.append_nil] at hp
      have hq : isSpace '"' = false := by decide
      have hb : isSpace '[' = false := by decide
      simp only [unmarshalStrings, marshalStrings, parseJSON, parseValue, skipWs, hb]
      simp [encodeElems, skipWs, hq] at hp ⊢
      rw [hp]
      have hmap : ∀ l : List String, List.map (elemString ∘ fun y => JSON.str y.data) l = l := by
        intro l
        induction l with
        | nil => rfl
        | cons y l ih => simp only [List.map_cons, ih]; rfl
      simp [skipWs, elemString, hmap]

/-! ## The operations on a ledger that does not fail -/

theorem removeLoop_eq_erase (key : String) (l : List String) :
    ∀ seen, removeLoop key seen l = seen ++ l.erase key := by
  induction l with
  | nil => intro seen; simp [removeLoop]
  | cons val rest ih =>
    intro seen
    by_cases h : val = key
    · simp [removeLoop, h]
    · simp [removeLoop, h, ih, List.erase_cons]

theorem removeLoop_nil (key : String) : removeLoop key [] = fun l => l.erase key := by
  funext l
  simp [removeLoop_eq_erase]

theorem Delete_reliable (stub : ChaincodeStub) (key : String) (h : stub.reliable) :
    Delete stub [key] = (Except.ok "", deleteResult stub key) := by
  have hg := (h surveyIndexStr).1
  have hp := (h surveyIndexStr).2.1
  have hd := (h key).2.2
  simp [Delete, DelState, GetState, PutState, hg, hp, hd, deleteResult, removeLoop_nil]

theorem deleteResult_reliable (stub : ChaincodeStub) (key : String) (h : stub.reliable) :
    (deleteResult stub key).reliable := h

theorem elems_map_erase (sl : StringSlice) (key : String) :
    StringSlice.elems (sl.map (fun l => l.erase key)) = sl.elems.erase key := by
  cases sl <;> simp [StringSlice.elems]

theorem loadIndex_deleteResult (stub : ChaincodeStub) (key : String)
    (hd : stub.delErr key = none) :
    loadIndex (deleteResult stub key) = (loadIndex (DelState stub key).2).erase key := by
  simp [loadIndex, deleteResult, DelState, hd, unmarshalStrings_marshalStrings, elems_map_erase]

theorem loadIndex_DelState_of_ne (stub : ChaincodeStub) (key : String)
    (hk : key ≠ surveyIndexStr) : loadIndex (DelState stub key).2 = loadIndex stub := by
  have hk2 : surveyIndexStr ≠ key := fun h => hk h.symm
  unfold DelState loadIndex
  cases stub.delErr key <;> simp [hk2]

theorem loadIndex_DelState_self (stub : ChaincodeStub) (hd : stub.delErr surveyIndexStr = none) :
    loadIndex (DelState stub surveyIndexStr).2 = [] := by
  simp [loadIndex, DelState, hd]
  decide

theorem length_le_zero_iff (s : String) : s.length ≤ 0 ↔ s = "" := by
  rw [Nat.le_zero, String.length]
  constructor
  · intro h
    have : s.data = [] := List.length_eq_zero.mp h
    cases s; simp_all
  · intro h; subst h; rfl

theorem init_survey_valid (lower : Char → Char) (stub : ChaincodeStub)
    (a0 a1 a2 a3 a4 a5 : String) (score : Int)
    (h0 : a0 ≠ "") (h1 : a1 ≠ "") (h2 : a2 ≠ "") (h3 : a3 ≠ "") (h4 : a4 ≠ "") (h5 : a5 ≠ "")
    (hs : Atoi a3 = some score) (hr : stub.reliable) :
    init_survey lower stub [a0, a1, a2, a3, a4, a5] =
      if (unmarshalSurvey ((stub.state a0).getD "") Survey.zero).Key = a0 then
        (Except.error "This survey arleady exists",
          { stub with log := stub.log ++ [Call.get a0] })
      else
        (Except.ok "", createResult stub a0
          (surveyJSON a0 (ToLower lower a1) (ToLower lower a2) score (ToLower lower a4)
            (ToLower lower a5))) := by
  have hg := (hr surveyIndexStr).1
  have hp := (hr surveyIndexStr).2.1
  have hg0 := (hr a0).1
  have hp0 := (hr a0).2.1
  simp only [init_survey, length_le_zero_iff, h0, h1, h2, h3, h4, h5, if_false, hs]
  simp only [GetState, hg0]
  split_ifs with hdup
  · rfl
  · simp [PutState, GetState, hg, hp, hp0, createResult]

/-! ## Facts used by several claims -/

theorem ofState_reliable (m : String → Option String) : (ChaincodeStub.ofState m).reliable :=
  fun _ => ⟨rfl, rfl, rfl⟩

theorem init_survey_arity (lower : Char → Char) (stub : ChaincodeStub) (args : List String)
    (h : args.length ≠ 6) :
    init_survey lower stub args = (Except.error "Incorrect number of arguments. Expecting 6", stub) := by
  rcases args with _ | ⟨a0, _ | ⟨a1, _ | ⟨a2, _ | ⟨a3, _ | ⟨a4, _ | ⟨a5, _ | ⟨a6, r⟩⟩⟩⟩⟩⟩⟩ <;>
    first
    | rfl
    | exact absurd rfl h

/-- A successful `init_survey` was given six non-empty arguments, the fourth an
integer. -/
theorem init_survey_ok_inv (lower : Char → Char) (stub : ChaincodeStub) (args : List String)
    (p : String) (h : (init_survey lower stub args).1 = Except.ok p) :
    ∃ a0 a1 a2 a3 a4 a5 score, args = [a0, a1, a2, a3, a4, a5] ∧ a0 ≠ "" ∧ a1 ≠ "" ∧ a2 ≠ "" ∧
      a3 ≠ "" ∧ a4 ≠ "" ∧ a5 ≠ "" ∧ Atoi a3 = some score := by
  by_cases hl : args.length = 6
  · rcases args with _ | ⟨a0, _ | ⟨a1, _ | ⟨a2, _ | ⟨a3, _ | ⟨a4, _ | ⟨a5, _ | ⟨a6, r⟩⟩⟩⟩⟩⟩⟩ <;>
      simp at hl
    simp only [init_survey, length_le_zero_iff] at h
    split_ifs at h with h0 h1 h2 h3 h4 h5
    cases hs : Atoi a3 with
    | none => rw [hs] at h; exact absurd h (by simp)
    | some score => exact ⟨a0, a1, a2, a3, a4, a5, score, rfl, h0, h1, h2, h3, h4, h5, hs⟩
  · rw [init_survey_arity lower stub args hl] at h
    cases h

theorem unmarshalSurvey_empty : unmarshalSurvey "" Survey.zero = Survey.zero := by decide

theorem loadIndex_createResult (stub : ChaincodeStub) (key str : String)
    (hk : key ≠ surveyIndexStr) :
    loadIndex (createResult stub key str) = loadIndex stub ++ [key] := by
  have hk2 : surveyIndexStr ≠ key := fun h => hk h.symm
  simp [loadIndex, createResult, unmarshalStrings_marshalStrings, hk2, StringSlice.append,
    StringSlice.elems]

/-! ## The claims -/

/-- C1 (uniqueness), evaluated at the key `"`: on the empty ledger the first
`init_survey` succeeds, the second one with the same arguments succeeds as
well instead of failing with the duplicate error, and the index then lists
the key twice.  The record text built by concatenation is not valid JSON when
a field holds a quote, so the duplicate check decodes nothing. -/
theorem C1_second_create_accepted :
    (init_survey Char.toLower emptyLedger quoteArgs).1 = Except.ok "" ∧
    (init_survey Char.toLower (init_survey Char.toLower emptyLedger quoteArgs).2 quoteArgs).1
      = Except.ok "" ∧
    loadIndex (init_survey Char.toLower
      (init_survey Char.toLower emptyLedger quoteArgs).2 quoteArgs).2 = ["\"", "\""] :=
  ⟨rfl, rfl, by decide⟩

/-- C2 (index membership), evaluated on a run from an initialised ledger:
create, create and delete for the key `"` all succeed, and the index still
lists the key although the last call for it was a delete. -/
theorem C2_deleted_key_still_indexed :
    (Init "_opentrades" "\x7b\"open_trades\":null\x7d" emptyLedger ["1"]).1 = Except.ok "" ∧
    (init_survey Char.toLower initLedger quoteArgs).1 = Except.ok "" ∧
    (init_survey Char.toLower (init_survey Char.toLower initLedger quoteArgs).2 quoteArgs).1
      = Except.ok "" ∧
    (Delete (init_survey Char.toLower
      (init_survey Char.toLower initLedger quoteArgs).2 quoteArgs).2 ["\""]).1 = Except.ok "" ∧
    "\"" ∈ loadIndex (Delete (init_survey Char.toLower
      (init_survey Char.toLower initLedger quoteArgs).2 quoteArgs).2 ["\""]).2 :=
  ⟨rfl, rfl, rfl, rfl, by decide⟩

/-- C3 (codec round trip), evaluated: decoding the record text built for the
scenario record loses the score (the text holds a number, the field of
`Survey` is a string), and decoding the text built for a key that is a quote
yields no field at all. -/
theorem C3_decode_loses_fields :
    unmarshalSurvey (surveyJSON "m1" "surveya" "cust1" 7 "great" "2024-01-01") Survey.zero
      = ⟨"m1", "surveya", "cust1", "", "great", "2024-01-01"⟩ ∧
    unmarshalSurvey (surveyJSON "\"" "surveya" "cust1" 7 "great" "2024-01-01") Survey.zero
      = Survey.zero := by
  decide

/-- C4 (validation completeness): with fewer than six arguments, or six of
which one is empty, or six non-empty ones the fourth of which is no integer,
`init_survey` returns one of its validation errors and the ledger it returns
is the one it was given, log of substrate calls included: nothing was read or
written. -/
theorem C4_validation_completeness (lower : Char → Char) (stub : ChaincodeStub)
    (args : List String)
    (h : args.length < 6 ∨ (args.length = 6 ∧ "" ∈ args) ∨
      (args.length = 6 ∧ "" ∉ args ∧ Atoi (args.getD 3 "") = none)) :
    ∃ msg, init_survey lower stub args = (Except.error msg, stub) ∧ msg ∈ validationErrors := by
  rcases h with h | ⟨hl, hm⟩ | ⟨hl, hm, hs⟩
  · exact ⟨_, init_survey_arity lower stub args (by omega), by simp [validationErrors]⟩
  · rcases args with _ | ⟨a0, _ | ⟨a1, _ | ⟨a2, _ | ⟨a3, _ | ⟨a4, _ | ⟨a5, _ | ⟨a6, r⟩⟩⟩⟩⟩⟩⟩ <;>
      simp at hl
    simp only [init_survey, length_le_zero_iff]
    split_ifs with h0 h1 h2 h3 h4 h5
    · exact ⟨_, rfl, by simp [validationErrors]⟩
    · exact ⟨_, rfl, by simp [validationErrors]⟩
    · exact ⟨_, rfl, by simp [validationErrors]⟩
    · exact ⟨_, rfl, by simp [validationErrors]⟩
    · exact ⟨_, rfl, by simp [validationErrors]⟩
    · exact ⟨_, rfl, by simp [validationErrors]⟩
    · exfalso
      simp only [List.mem_cons, List.mem_singleton, List.not_mem_nil, or_false] at hm
      rcases hm with e | e | e | e | e | e
      · exact h0 e.symm
      · exact h1 e.symm
      · exact h2 e.symm
      · exact h3 e.symm
      · exact h4 e.symm
      · exact h5 e.symm
  · rcases args with _ | ⟨a0, _ | ⟨a1, _ | ⟨a2, _ | ⟨a3, _ | ⟨a4, _ | ⟨a5, _ | ⟨a6, r⟩⟩⟩⟩⟩⟩⟩ <;>
      simp at hl
    have hs' : Atoi a3 = none := by simpa using hs
    simp only [init_survey, length_le_zero_iff, hs']
    split_ifs
    all_goals exact ⟨_, rfl, by simp [validationErrors]⟩

/-- Witness of C4: a score that is no integer, on the empty ledger. -/
theorem C4_validation_completeness_witness :
    Atoi "seven" = none ∧
    ∃ msg, init_survey Char.toLower emptyLedger
        ["m1", "SurveyA", "cust1", "seven", "great", "2024-01-01"]
      = (Except.error msg, emptyLedger) ∧ msg ∈ validationErrors :=
  ⟨by decide, C4_validation_completeness Char.toLower emptyLedger
    ["m1", "SurveyA", "cust1", "seven", "great", "2024-01-01"]
    (Or.inr (Or.inr ⟨rfl, by decide, by decide⟩))⟩

/-- Counterexample to C5 as stated: the index `["a","a"]` still lists `a`
after a successful `Delete` of `a`. -/
theorem C5_counterexample :
    (indexLedger "[\"a\",\"a\"]").reliable ∧
    (Delete (indexLedger "[\"a\",\"a\"]") ["a"]).1 = Except.ok "" ∧
    "a" ∈ loadIndex (Delete (indexLedger "[\"a\",\"a\"]") ["a"]).2 :=
  ⟨ofState_reliable _, rfl, by decide⟩

/-- C5 (delete idempotence), amended: on a ledger that does not fail and whose
index lists the key at most once, two `Delete` calls in succession succeed and
the index does not list the key after the first nor after the second. -/
theorem C5_delete_twice (stub : ChaincodeStub) (id : String) (hr : stub.reliable)
    (hc : (loadIndex stub).count id ≤ 1) :
    (Delete stub [id]).1 = Except.ok "" ∧
    (Delete (Delete stub [id]).2 [id]).1 = Except.ok "" ∧
    id ∉ loadIndex (Delete stub [id]).2 ∧
    id ∉ loadIndex (Delete (Delete stub [id]).2 [id]).2 := by
  have hr1 := deleteResult_reliable stub id hr
  have h1 : id ∉ loadIndex (deleteResult stub id) := by
    rw [loadIndex_deleteResult stub id (hr id).2.2]
    by_cases hk : id = surveyIndexStr
    · subst hk
      rw [loadIndex_DelState_self stub (hr _).2.2]
      simp
    · rw [loadIndex_DelState_of_ne stub id hk]
      intro hm
      have := List.count_pos_iff.mpr hm
      rw [List.count_erase_self] at this
      omega
  have h2 : id ∉ loadIndex (deleteResult (deleteResult stub id) id) := by
    rw [loadIndex_deleteResult _ id (hr1 id).2.2]
    by_cases hk : id = surveyIndexStr
    · subst hk
      rw [loadIndex_DelState_self _ (hr1 _).2.2]
      simp
    · rw [loadIndex_DelState_of_ne _ id hk]
      exact fun hm => h1 (List.mem_of_mem_erase hm)
  have e1 := Delete_reliable stub id hr
  have e2 := Delete_reliable (deleteResult stub id) id hr1
  refine ⟨?_, ?_, ?_, ?_⟩
  · rw [e1]
  · simp only [e1, e2]
  · simpa only [e1] using h1
  · simpa only [e1, e2] using h2

/-- Witness of C5: the index `["a","b"]` and the key `a`. -/
theorem C5_delete_twice_witness :
    (loadIndex (indexLedger "[\"a\",\"b\"]")).count "a" ≤ 1 ∧
    (Delete (indexLedger "[\"a\",\"b\"]") ["a"]).1 = Except.ok "" ∧
    (Delete (Delete (indexLedger "[\"a\",\"b\"]") ["a"]).2 ["a"]).1 = Except.ok "" ∧
    "a" ∉ loadIndex (Delete (indexLedger "[\"a\",\"b\"]") ["a"]).2 ∧
    "a" ∉ loadIndex (Delete (Delete (indexLedger "[\"a\",\"b\"]") ["a"]).2 ["a"]).2 :=
  ⟨by decide, C5_delete_twice (indexLedger "[\"a\",\"b\"]") "a" (ofState_reliable _) (by decide)⟩

/-- C6 (duplicate detection): on a ledger that does not fail and for six
non-empty arguments with an integer score, `init_survey` fails with the
duplicate error exactly when the bytes stored under the key decode to a record
whose `Key` is the key; it does not do so when the key is absent or holds no
bytes; and when it does, the contents of the ledger are unchanged. -/
theorem C6_duplicate_detection (lower : Char → Char) (stub : ChaincodeStub)
    (a0 a1 a2 a3 a4 a5 : String)
    (h0 : a0 ≠ "") (h1 : a1 ≠ "") (h2 : a2 ≠ "") (h3 : a3 ≠ "") (h4 : a4 ≠ "") (h5 : a5 ≠ "")
    (hs : Atoi a3 ≠ none) (hr : stub.reliable) :
    ((init_survey lower stub [a0, a1, a2, a3, a4, a5]).1 = Except.error duplicateError ↔
      (unmarshalSurvey ((stub.state a0).getD "") Survey.zero).Key = a0) ∧
    (stub.state a0 = none ∨ stub.state a0 = some "" →
      (init_survey lower stub [a0, a1, a2, a3, a4, a5]).1 ≠ Except.error duplicateError) ∧
    ((init_survey lower stub [a0, a1, a2, a3, a4, a5]).1 = Except.error duplicateError →
      (init_survey lower stub [a0, a1, a2, a3, a4, a5]).2.state = stub.state) := by
  obtain ⟨score, hscore⟩ : ∃ score, Atoi a3 = some score := by
    cases h : Atoi a3 with
    | none => exact absurd h hs
    | some score => exact ⟨score, rfl⟩
  have key := init_survey_valid lower stub a0 a1 a2 a3 a4 a5 score h0 h1 h2 h3 h4 h5 hscore hr
  have hiff : (init_survey lower stub [a0, a1, a2, a3, a4, a5]).1 = Except.error duplicateError ↔
      (unmarshalSurvey ((stub.state a0).getD "") Survey.zero).Key = a0 := by
    rw [key]
    split_ifs with hd
    · simp [hd, duplicateError]
    · simp [hd]
  refine ⟨hiff, ?_, ?_⟩
  · intro habs hdup
    have hk := hiff.mp hdup
    have he : (stub.state a0).getD "" = "" := by
      rcases habs with h | h <;> simp [h]
    rw [he, unmarshalSurvey_empty] at hk
    exact h0 hk.symm
  · intro hdup
    have hk := hiff.mp hdup
    rw [key, if_pos hk]

/-- Witness of C6: creating the scenario record a second time. -/
theorem C6_duplicate_detection_witness :
    (init_survey Char.toLower (init_survey Char.toLower emptyLedger scenarioArgs).2
        scenarioArgs).1 = Except.error duplicateError ∧
    (unmarshalSurvey
      (((init_survey Char.toLower emptyLedger scenarioArgs).2.state "m1").getD "")
      Survey.zero).Key = "m1" :=
  have h := C6_duplicate_detection Char.toLower
    (init_survey Char.toLower emptyLedger scenarioArgs).2
    "m1" "SurveyA" "cust1" "7" "great" "2024-01-01"
    (by decide) (by decide) (by decide) (by decide) (by decide) (by decide) (by decide)
    (fun _ => ⟨rfl, rfl, rfl⟩)
  ⟨h.1.mpr (by decide), by decide⟩

/-- Counterexample to C7 as stated: a create whose key is the index key
succeeds, yet the key then holds the index and not the record, and the index
`["a"]` has become `["_surveyindex"]`, the entry `a` gone. -/
theorem C7_counterexample :
    (indexLedger "[\"a\"]").reliable ∧
    (init_survey Char.toLower (indexLedger "[\"a\"]") indexKeyArgs).1 = Except.ok "" ∧
    (init_survey Char.toLower (indexLedger "[\"a\"]") indexKeyArgs).2.state "_surveyindex"
      = some "[\"_surveyindex\"]" ∧
    loadIndex (indexLedger "[\"a\"]") = ["a"] ∧
    loadIndex (init_survey Char.toLower (indexLedger "[\"a\"]") indexKeyArgs).2
      = ["_surveyindex"] :=
  ⟨ofState_reliable _, rfl, by decide, by decide, by decide⟩

/-- C7 (create postcondition), amended: on a ledger that does not fail, when
`init_survey` succeeds with a key other than the index key, the index decoded
afterwards is the index decoded before with the key appended, the key holds
the record text built from the arguments, and every key other than the key
and the index key holds what it held. -/
theorem C7_create_postcondition (lower : Char → Char) (stub : ChaincodeStub)
    (args : List String) (p : String) (hr : stub.reliable)
    (hok : (init_survey lower stub args).1 = Except.ok p)
    (hk : args.head? ≠ some surveyIndexStr) :
    ∃ a0 a1 a2 a3 a4 a5 score, args = [a0, a1, a2, a3, a4, a5] ∧ Atoi a3 = some score ∧
      loadIndex (init_survey lower stub args).2 = loadIndex stub ++ [a0] ∧
      (init_survey lower stub args).2.state a0
        = some (surveyJSON a0 (ToLower lower a1) (ToLower lower a2) score (ToLower lower a4)
            (ToLower lower a5)) ∧
      ∀ k, k ≠ a0 → k ≠ surveyIndexStr →
        (init_survey lower stub args).2.state k = stub.state k := by
  obtain ⟨a0, a1, a2, a3, a4, a5, score, rfl, h0, h1, h2, h3, h4, h5, hs⟩ :=
    init_survey_ok_inv lower stub args p hok
  have hk0 : a0 ≠ surveyIndexStr := by
    intro h
    exact hk (by simp [h])
  have key := init_survey_valid lower stub a0 a1 a2 a3 a4 a5 score h0 h1 h2 h3 h4 h5 hs hr
  by_cases hd : (unmarshalSurvey ((stub.state a0).getD "") Survey.zero).Key = a0
  · rw [key, if_pos hd] at hok
    cases hok
  · rw [if_neg hd] at key
    refine ⟨a0, a1, a2, a3, a4, a5, score, rfl, hs, ?_, ?_, ?_⟩
    · rw [key]
      exact loadIndex_createResult stub a0 _ hk0
    · rw [key]
      simp [createResult, hk0]
    · intro k hka hki
      rw [key]
      simp [createResult, hka, hki]

/-- Witness of C7: the scenario record created on a ledger whose index is
`["a"]`. -/
theorem C7_create_postcondition_witness :
    (init_survey Char.toLower (indexLedger "[\"a\"]") scenarioArgs).1 = Except.ok "" ∧
    ∃ a0 a1 a2 a3 a4 a5 score, scenarioArgs = [a0, a1, a2, a3, a4, a5] ∧
      Atoi a3 = some score ∧
      loadIndex (init_survey Char.toLower (indexLedger "[\"a\"]") scenarioArgs).2
        = loadIndex (indexLedger "[\"a\"]") ++ [a0] ∧
      (init_survey Char.toLower (indexLedger "[\"a\"]") scenarioArgs).2.state a0
        = some (surveyJSON a0 (ToLower Char.toLower a1) (ToLower Char.toLower a2) score
            (ToLower Char.toLower a4) (ToLower Char.toLower a5)) ∧
      ∀ k, k ≠ a0 → k ≠ surveyIndexStr →
        (init_survey Char.toLower (indexLedger "[\"a\"]") scenarioArgs).2.state k
          = (indexLedger "[\"a\"]").state k :=
  ⟨rfl, C7_create_postcondition Char.toLower (indexLedger "[\"a\"]") scenarioArgs ""
    (ofState_reliable _) rfl (by decide)⟩

/-- C8 (index removal): on a ledger that does not fail `Delete` succeeds and
writes the index back; the index decoded afterwards is the index the
operation loaded with the first entry equal to the key removed and all other
entries, later duplicates of the key included, in their order; when the key
does not occur, it is the same sequence.  The index the operation loads is the
one decoded once the key is deleted, which is the index decoded before the
call whenever the key is not the index key. -/
theorem C8_index_removal (stub : ChaincodeStub) (id : String) (hr : stub.reliable) :
    (Delete stub [id]).1 = Except.ok "" ∧
    (∃ bytes, (Delete stub [id]).2.log = stub.log ++
      [Call.del id, Call.get surveyIndexStr, Call.put surveyIndexStr bytes]) ∧
    (id ≠ surveyIndexStr → loadIndex (DelState stub id).2 = loadIndex stub) ∧
    (id ∈ loadIndex (DelState stub id).2 →
      ∃ before after, loadIndex (DelState stub id).2 = before ++ id :: after ∧ id ∉ before ∧
        loadIndex (Delete stub [id]).2 = before ++ after) ∧
    (id ∉ loadIndex (DelState stub id).2 →
      loadIndex (Delete stub [id]).2 = loadIndex (DelState stub id).2) := by
  have e1 := Delete_reliable stub id hr
  have hl := loadIndex_deleteResult stub id (hr id).2.2
  refine ⟨by rw [e1], ⟨_, by rw [e1]; rfl⟩, loadIndex_DelState_of_ne stub id, ?_, ?_⟩
  · intro hm
    obtain ⟨before, after, hnot, hsplit, herase⟩ := List.exists_erase_eq hm
    refine ⟨before, after, hsplit, hnot, ?_⟩
    rw [e1]
    simp only []
    rw [hl, herase]
  · intro hm
    rw [e1]
    simp only []
    rw [hl, List.erase_of_not_mem hm]

/-- Witness of C8: deleting `a` from the index `["b","a","c","a"]`. -/
theorem C8_index_removal_witness :
    loadIndex (indexLedger "[\"b\",\"a\",\"c\",\"a\"]") = ["b", "a", "c", "a"] ∧
    loadIndex (Delete (indexLedger "[\"b\",\"a\",\"c\",\"a\"]") ["a"]).2 = ["b", "c", "a"] ∧
    (Delete (indexLedger "[\"b\",\"a\",\"c\",\"a\"]") ["a"]).1 = Except.ok "" :=
  ⟨by decide, by decide,
    (C8_index_removal (indexLedger "[\"b\",\"a\",\"c\",\"a\"]") "a" (ofState_reliable _)).1⟩

/-- Counterexample to C9 as stated: after a successful `Delete` of the index
key the key is not absent, it holds the index written back. -/
theorem C9_counterexample :
    emptyLedger.reliable ∧
    (Delete emptyLedger ["_surveyindex"]).1 = Except.ok "" ∧
    (Delete emptyLedger ["_surveyindex"]).2.state "_surveyindex" = some "null" :=
  ⟨ofState_reliable _, rfl, by decide⟩

/-- C9 (delete postcondition), amended: on a ledger that does not fail,
`Delete` with a single key other than the index key succeeds whether or not
the key was present, the key is absent afterwards, and every key other than
the key and the index key holds what it held. -/
theorem C9_delete_postcondition (stub : ChaincodeStub) (id : String) (hr : stub.reliable)
    (hk : id ≠ surveyIndexStr) :
    (Delete stub [id]).1 = Except.ok "" ∧
    (Delete stub [id]).2.state id = none ∧
    ∀ k, k ≠ id → k ≠ surveyIndexStr → (Delete stub [id]).2.state k = stub.state k := by
  rw [Delete_reliable stub id hr]
  refine ⟨rfl, ?_, ?_⟩
  · simp [deleteResult, hk]
  · intro k hki hkx
    simp [deleteResult, hki, hkx]

/-- Witness of C9: deleting a key that was never stored. -/
theorem C9_delete_postcondition_witness :
    emptyLedger.state "m1" = none ∧
    (Delete emptyLedger ["m1"]).1 = Except.ok "" ∧
    (Delete emptyLedger ["m1"]).2.state "m1" = none ∧
    ∀ k, k ≠ "m1" → k ≠ surveyIndexStr →
      (Delete emptyLedger ["m1"]).2.state k = emptyLedger.state k :=
  ⟨rfl, C9_delete_postcondition emptyLedger "m1" (ofState_reliable _) (by decide)⟩

/-- Counterexample to C10 as stated: `read` of a key the ledger does not hold,
the substrate get returning no value and no failure, is a success with empty
bytes and no error. -/
theorem C10_counterexample :
    emptyLedger.state "m1" = none ∧ emptyLedger.getErr "m1" = none ∧
    (read emptyLedger ["m1"]).1 = Except.ok "" :=
  ⟨rfl, rfl, rfl⟩

/-- C10 (read of an absent key), amended: when the substrate get of the key
does not fail, `read` succeeds with the bytes under the key, which are empty
for an absent key; it fails exactly when the substrate get fails, the message
naming the key; and on a ledger that does not fail, `read` of a key other than
the index key after `Delete` of that key succeeds with empty bytes. -/
theorem C10_read_absent (stub : ChaincodeStub) (key : String) :
    (stub.getErr key = none → stub.state key = none → (read stub [key]).1 = Except.ok "") ∧
    (stub.getErr key ≠ none → (read stub [key]).1 =
      Except.error ("\x7b\"Error\":\"Failed to get state for " ++ key ++ "\"\x7d")) ∧
    (stub.reliable → key ≠ surveyIndexStr →
      (read (Delete stub [key]).2 [key]).1 = Except.ok "") := by
  refine ⟨?_, ?_, ?_⟩
  · intro hg hs
    simp [read, GetState, hg, hs]
  · intro hg
    cases h : stub.getErr key with
    | none => exact absurd h hg
    | some e => simp [read, GetState, h]
  · intro hr hk
    rw [Delete_reliable stub key hr]
    have hg : stub.getErr key = none := (hr key).1
    simp [read, GetState, hg, deleteResult, hk]

/-- Witness of C10: a key the empty ledger does not hold, read before and
after its deletion. -/
theorem C10_read_absent_witness :
    (read emptyLedger ["m1"]).1 = Except.ok "" ∧
    (read (Delete emptyLedger ["m1"]).2 ["m1"]).1 = Except.ok "" :=
  ⟨(C10_read_absent emptyLedger "m1").1 rfl rfl,
    (C10_read_absent emptyLedger "m1").2.2 (ofState_reliable _) (by decide)⟩

/-- C11 (concrete scenario), evaluated from the initialised ledger: the create
succeeds, the index is `["m1"]`, `read` returns the record text, the delete
succeeds and the index is empty again; but the record text decodes to a
record whose score is the empty string, not 7. -/
theorem C11_scenario_score_lost :
    (init_survey Char.toLower initLedger scenarioArgs).1 = Except.ok "" ∧
    loadIndex scenarioLedger = ["m1"] ∧
    (read scenarioLedger ["m1"]).1
      = Except.ok (surveyJSON "m1" "surveya" "cust1" 7 "great" "2024-01-01") ∧
    unmarshalSurvey (surveyJSON "m1" "surveya" "cust1" 7 "great" "2024-01-01") Survey.zero
      = ⟨"m1", "surveya", "cust1", "", "great", "2024-01-01"⟩ ∧
    (Delete scenarioLedger ["m1"]).1 = Except.ok "" ∧
    loadIndex (Delete scenarioLedger ["m1"]).2 = [] :=
  ⟨rfl, by decide, rfl, by decide, rfl, by decide⟩

/-- C12 (storage failures are reported), evaluated on a ledger whose puts of
the index key fail: `init_survey` stores the record, attempts the put of the
index, and returns success with the index unchanged; `Delete` returns success
as well. -/
theorem C12_index_put_failure_ignored :
    (PutState indexPutFails surveyIndexStr "[\"m1\"]").1 = some "put failed" ∧
    (init_survey Char.toLower indexPutFails scenarioArgs).1 = Except.ok "" ∧
    (init_survey Char.toLower indexPutFails scenarioArgs).2.log
      = [Call.get "m1",
         Call.put "m1" (surveyJSON "m1" "surveya" "cust1" 7 "great" "2024-01-01"),
         Call.get "_surveyindex", Call.put "_surveyindex" "[\"m1\"]"] ∧
    (init_survey Char.toLower indexPutFails scenarioArgs).2.state "m1"
      = some (surveyJSON "m1" "surveya" "cust1" 7 "great" "2024-01-01") ∧
    (init_survey Char.toLower indexPutFails scenarioArgs).2.state "_surveyindex" = none ∧
    (Delete indexPutFails ["m1"]).1 = Except.ok "" ∧
    (Delete indexPutFails ["m1"]).2.log
      = [Call.del "m1", Call.get "_surveyindex", Call.put "_surveyindex" "null"] ∧
    (Delete indexPutFails ["m1"]).2.state "_surveyindex" = none :=
  ⟨rfl, rfl, by decide, by decide, by decide, rfl, by decide, by decide⟩

/-- Counterexample to C13 as stated: a `Write` to the index key changes the
sequence decoded from it. -/
theorem C13_counterexample :
    emptyLedger.reliable ∧
    (Write emptyLedger ["_surveyindex", "[\"x\"]"]).1 = Except.ok "" ∧
    loadIndex emptyLedger = [] ∧
    loadIndex (Write emptyLedger ["_surveyindex", "[\"x\"]"]).2 = ["x"] :=
  ⟨ofState_reliable _, rfl, by decide, by decide⟩

/-- C13 (raw write), amended: on a ledger that does not fail `Write` succeeds,
the key then holds exactly the value, every other key holds what it held, and
when the key is not the index key the sequence decoded from the index key is
the same before and after. -/
theorem C13_write_bypasses_index (stub : ChaincodeStub) (key value : String)
    (hr : stub.reliable) :
    (Write stub [key, value]).1 = Except.ok "" ∧
    (Write stub [key, value]).2.state key = some value ∧
    (∀ k, k ≠ key → (Write stub [key, value]).2.state k = stub.state k) ∧
    (key ≠ surveyIndexStr → loadIndex (Write stub [key, value]).2 = loadIndex stub) := by
  have hp := (hr key).2.1
  refine ⟨?_, ?_, ?_, ?_⟩
  · simp [Write, PutState, hp]
  · simp [Write, PutState, hp]
  · intro k hk
    simp [Write, PutState, hp, hk]
  · intro hk
    have hk2 : surveyIndexStr ≠ key := fun h => hk h.symm
    simp [Write, PutState, hp, loadIndex, hk2]

/-- Witness of C13: writing the counter `abc` on a ledger whose index is
`["a"]`. -/
theorem C13_write_bypasses_index_witness :
    (Write (indexLedger "[\"a\"]") ["abc", "42"]).1 = Except.ok "" ∧
    (Write (indexLedger "[\"a\"]") ["abc", "42"]).2.state "abc" = some "42" ∧
    (∀ k, k ≠ "abc" →
      (Write (indexLedger "[\"a\"]") ["abc", "42"]).2.state k = (indexLedger "[\"a\"]").state k) ∧
    ("abc" ≠ surveyIndexStr →
      loadIndex (Write (indexLedger "[\"a\"]") ["abc", "42"]).2
        = loadIndex (indexLedger "[\"a\"]")) :=
  C13_write_bypasses_index (indexLedger "[\"a\"]") "abc" "42" (ofState_reliable _)

/-- C14 (normalisation on create): when `init_survey` succeeds, the text it
puts under the key is the record built from the first argument as it is, the
lower-cased second, third, fifth and sixth arguments and the integer the
fourth stands for; the put of it succeeded, and when the key is not the index
key the key holds that text afterwards. -/
theorem C14_normalisation (lower : Char → Char) (stub : ChaincodeStub) (args : List String)
    (p : String) (hok : (init_survey lower stub args).1 = Except.ok p) :
    ∃ a0 a1 a2 a3 a4 a5 score bytes, args = [a0, a1, a2, a3, a4, a5] ∧ Atoi a3 = some score ∧
      stub.putErr a0 = none ∧
      (init_survey lower stub args).2.log = stub.log ++
        [Call.get a0,
         Call.put a0 (surveyJSON a0 (ToLower lower a1) (ToLower lower a2) score
           (ToLower lower a4) (ToLower lower a5)),
         Call.get surveyIndexStr, Call.put surveyIndexStr bytes] ∧
      (a0 ≠ surveyIndexStr → (init_survey lower stub args).2.state a0
        = some (surveyJSON a0 (ToLower lower a1) (ToLower lower a2) score
           (ToLower lower a4) (ToLower lower a5))) := by
  obtain ⟨a0, a1, a2, a3, a4, a5, score, rfl, h0, h1, h2, h3, h4, h5, hs⟩ :=
    init_survey_ok_inv lower stub args p hok
  simp only [init_survey, length_le_zero_iff, h0, h1, h2, h3, h4, h5, if_false, hs] at hok ⊢
  simp only [GetState] at hok ⊢
  cases hg0 : stub.getErr a0 with
  | some e => simp [hg0] at hok
  | none =>
    simp only [hg0] at hok ⊢
    by_cases hd : (unmarshalSurvey ((stub.state a0).getD "") Survey.zero).Key = a0
    · simp [hd] at hok
    · simp only [hd, if_false, PutState] at hok ⊢
      cases hp0 : stub.putErr a0 with
      | some e => simp [hp0] at hok
      | none =>
        simp only [hp0] at hok ⊢
        cases hgi : stub.getErr surveyIndexStr with
        | some e => simp [hgi] at hok
        | none =>
          simp only [hgi]
          refine ⟨a0, a1, a2, a3, a4, a5, score,
            marshalStrings ((unmarshalStrings
              ((if surveyIndexStr = a0 then
                  some (surveyJSON a0 (ToLower lower a1) (ToLower lower a2) score
                    (ToLower lower a4) (ToLower lower a5))
                else stub.state surveyIndexStr).getD "")).append a0),
            rfl, hs, hp0, ?_, ?_⟩
          · cases hpi : stub.putErr surveyIndexStr <;> simp
          · intro hk
            cases hpi : stub.putErr surveyIndexStr <;> simp [hk]

/-- Witness of C14: the scenario arguments on the empty ledger. -/
theorem C14_normalisation_witness :
    (init_survey Char.toLower emptyLedger scenarioArgs).1 = Except.ok "" ∧
    ∃ a0 a1 a2 a3 a4 a5 score bytes, scenarioArgs = [a0, a1, a2, a3, a4, a5] ∧
      Atoi a3 = some score ∧ emptyLedger.putErr a0 = none ∧
      (init_survey Char.toLower emptyLedger scenarioArgs).2.log = emptyLedger.log ++
        [Call.get a0,
         Call.put a0 (surveyJSON a0 (ToLower Char.toLower a1) (ToLower Char.toLower a2) score
           (ToLower Char.toLower a4) (ToLower Char.toLower a5)),
         Call.get surveyIndexStr, Call.put surveyIndexStr bytes] ∧
      (a0 ≠ surveyIndexStr → (init_survey Char.toLower emptyLedger scenarioArgs).2.state a0
        = some (surveyJSON a0 (ToLower Char.toLower a1) (ToLower Char.toLower a2) score
           (ToLower Char.toLower a4) (ToLower Char.toLower a5))) :=
  ⟨rfl, C14_normalisation Char.toLower emptyLedger scenarioArgs "" rfl⟩

/-- C15 (arity of `init_marble`), evaluated: six arguments are rejected with
the arity error, whose text asks for six; and for every argument list the
arity error is returned exactly when the length is not five.  Five non-empty
arguments pass the length check and end in a panic at `args[5]`. -/
theorem C15_six_arguments_rejected :
    (Marbles.init_marble Char.toLower emptyLedger scenarioArgs).1
      = Marbles.Outcome.returned (Except.error "Incorrect number of arguments. Expecting 6") ∧
    (Marbles.init_marble Char.toLower emptyLedger fiveArgs).1
      = Marbles.Outcome.indexOutOfRange 5 5 ∧
    ∀ (lower : Char → Char) (stub : ChaincodeStub) (args : List String),
      (Marbles.init_marble lower stub args).1
          = Marbles.Outcome.returned (Except.error "Incorrect number of arguments. Expecting 6")
        ↔ args.length ≠ 5 := by
  refine ⟨rfl, rfl, ?_⟩
  intro lower stub args
  constructor
  · intro h hl
    rcases args with _ | ⟨a0, _ | ⟨a1, _ | ⟨a2, _ | ⟨a3, _ | ⟨a4, _ | ⟨a5, r⟩⟩⟩⟩⟩⟩ <;>
      simp at hl
    simp only [Marbles.init_marble, Marbles.index, List.length_cons, List.length_nil,
      List.get?] at h
    split_ifs at h <;> first | omega | simp at h
  · intro hl
    simp [Marbles.init_marble, hl]

/-- C16 (the score parse failure names the score), evaluated: six non-empty
arguments with the fourth one `seven` are rejected with a message naming the
3rd argument, while an empty fourth argument is rejected with a message naming
the 4th. -/
theorem C16_score_error_names_third :
    init_survey Char.toLower emptyLedger wordScoreArgs
      = (Except.error "3rd argument must be a numeric string", emptyLedger) ∧
    init_survey Char.toLower emptyLedger emptyScoreArgs
      = (Except.error "4th argument must be a non-empty string", emptyLedger) :=
  ⟨rfl, rfl⟩

/-- C17 (initialisation resets the index): on a ledger that does not fail,
whatever it holds, `Init` with a single argument that is an integer succeeds
and the sequence decoded from the index key is empty afterwards; with another
number of arguments, or an argument that is no integer, `Init` fails and the
ledger is untouched.  The key of the open trades, a constant the repository
does not declare, is taken to differ from the index key. -/
theorem C17_init_resets_index (openTradesStr emptyTrades : String) (stub : ChaincodeStub)
    (args : List String) (hr : stub.reliable) (ht : openTradesStr ≠ surveyIndexStr) :
    (∀ a n, args = [a] → Atoi a = some n →
      (Init openTradesStr emptyTrades stub args).1 = Except.ok "" ∧
      loadIndex (Init openTradesStr emptyTrades stub args).2 = []) ∧
    (args.length ≠ 1 ∨ (∃ a, args = [a] ∧ Atoi a = none) →
      ∃ msg, Init openTradesStr emptyTrades stub args = (Except.error msg, stub)) := by
  have ht2 : surveyIndexStr ≠ openTradesStr := fun h => ht h.symm
  constructor
  · intro a n ha hn
    subst ha
    have h1 := (hr "abc").2.1
    have h2 := (hr surveyIndexStr).2.1
    have h3 := (hr openTradesStr).2.1
    refine ⟨?_, ?_⟩
    · simp [Init, hn, PutState, h1, h2, h3]
    · simp [Init, hn, PutState, h1, h2, h3, loadIndex, ht2]
      decide
  · rintro (hl | ⟨a, rfl, hn⟩)
    · rcases args with _ | ⟨a0, _ | ⟨a1, r⟩⟩
      · exact ⟨_, rfl⟩
      · simp at hl
      · exact ⟨_, rfl⟩
    · exact ⟨"Expecting integer value for asset holding", by simp [Init, hn]⟩

/-- Witness of C17: `Init` on a ledger whose index is `["a"]`. -/
theorem C17_init_resets_index_witness :
    loadIndex (indexLedger "[\"a\"]") = ["a"] ∧
    (Init "_opentrades" "\x7b\"open_trades\":null\x7d" (indexLedger "[\"a\"]") ["1"]).1
      = Except.ok "" ∧
    loadIndex (Init "_opentrades" "\x7b\"open_trades\":null\x7d" (indexLedger "[\"a\"]") ["1"]).2
      = [] :=
  ⟨by decide,
    (C17_init_resets_index "_opentrades" "\x7b\"open_trades\":null\x7d" (indexLedger "[\"a\"]")
      ["1"] (ofState_reliable _) (by decide)).1 "1" 1 rfl (by decide)⟩

/-- C18 (create never appends a duplicate), evaluated on a run from the
initialised ledger: after a first create for the key `"` the index lists the
key, a second create for the same key succeeds all the same, and the index
then lists the key twice. -/
theorem C18_duplicate_appended :
    (init_survey Char.toLower initLedger quoteArgs).1 = Except.ok "" ∧
    "\"" ∈ loadIndex (init_survey Char.toLower initLedger quoteArgs).2 ∧
    (init_survey Char.toLower (init_survey Char.toLower initLedger quoteArgs).2 quoteArgs).1
      = Except.ok "" ∧
    ¬ (loadIndex (init_survey Char.toLower
        (init_survey Char.toLower initLedger quoteArgs).2 quoteArgs).2).Nodup :=
  ⟨rfl, by decide, rfl, by decide⟩

/-- C19 (dispatcher routing): `Invoke` with a name other than `init`,
`delete`, `write`, `read` and `init_survey` returns the unknown-function error
and the ledger as it was; with one of the five names it returns what `Init`,
`Delete`, `Write`, `read`, `init_survey` return on the same arguments, and the
ledger they leave, which after `Delete` is passed through `cleanTrades`. -/
theorem C19_dispatcher_routing (lower : Char → Char) (openTradesStr emptyTrades : String)
    (cleanTrades : ChaincodeStub → ChaincodeStub) (stub : ChaincodeStub) (function : String)
    (args : List String) :
    (function ∉ invokeNames →
      Invoke lower openTradesStr emptyTrades cleanTrades stub function args
        = (Except.error "Received unknown function invocation", stub)) ∧
    Invoke lower openTradesStr emptyTrades cleanTrades stub "init" args
      = Init openTradesStr emptyTrades stub args ∧
    Invoke lower openTradesStr emptyTrades cleanTrades stub "write" args = Write stub args ∧
    Invoke lower openTradesStr emptyTrades cleanTrades stub "read" args = read stub args ∧
    Invoke lower openTradesStr emptyTrades cleanTrades stub "init_survey" args
      = init_survey lower stub args ∧
    (Invoke lower openTradesStr emptyTrades cleanTrades stub "delete" args).1
      = (Delete stub args).1 ∧
    (Invoke lower openTradesStr emptyTrades cleanTrades stub "delete" args).2
      = cleanTrades (Delete stub args).2 := by
  refine ⟨?_, ?_, ?_, ?_, ?_, ?_, ?_⟩
  · intro h
    simp only [invokeNames, List.mem_cons, List.mem_singleton, List.not_mem_nil, or_false,
      not_or] at h
    obtain ⟨h1, h2, h3, h4, h5⟩ := h
    simp [Invoke, h1, h2, h3, h4, h5]
  all_goals simp [Invoke]

/-- Witness of C19: the name `transfer` is not routed. -/
theorem C19_dispatcher_routing_witness :
    "transfer" ∉ invokeNames ∧
    Invoke Char.toLower "_opentrades" "" id emptyLedger "transfer" ["m1"]
      = (Except.error "Received unknown function invocation", emptyLedger) :=
  ⟨by decide,
    (C19_dispatcher_routing Char.toLower "_opentrades" "" id emptyLedger "transfer" ["m1"]).1
      (by decide)⟩

/-- C20 (query is read-only): `Query` returns what `read` returns when the
name is `read` and the unknown-function error for every other name, `write`,
`init_survey` and `delete` among them; it leaves the contents of the ledger as
they were, its only substrate call being at most one get. -/
theorem C20_query_read_only (stub : ChaincodeStub) (function : String) (args : List String) :
    (Query stub function args).2.state = stub.state ∧
    ((Query stub function args).2.log = stub.log ∨
      ∃ k, (Query stub function args).2.log = stub.log ++ [Call.get k]) ∧
    Query stub "read" args = read stub args ∧
    (function ≠ "read" →
      Query stub function args = (Except.error "Received unknown function query", stub)) ∧
    Query stub "write" args = (Except.error "Received unknown function query", stub) ∧
    Query stub "init_survey" args = (Except.error "Received unknown function query", stub) ∧
    Query stub "delete" args = (Except.error "Received unknown function query", stub) := by
  have hread : (read stub args).2.state = stub.state ∧
      ((read stub args).2.log = stub.log ∨ ∃ k, (read stub args).2.log = stub.log ++ [Call.get k]) := by
    rcases args with _ | ⟨key, _ | ⟨b, r⟩⟩
    · exact ⟨rfl, Or.inl rfl⟩
    · simp only [read, GetState]
      cases stub.getErr key <;> exact ⟨rfl, Or.inr ⟨key, rfl⟩⟩
    · exact ⟨rfl, Or.inl rfl⟩
  refine ⟨?_, ?_, by simp [Query], fun h => by simp [Query, h], by simp [Query],
    by simp [Query], by simp [Query]⟩
  · by_cases h : function = "read"
    · simp [Query, h, hread.1]
    · simp [Query, h]
  · by_cases h : function = "read"
    · simpa [Query, h] using hread.2
    · simp [Query, h]

/-- Witness of C20: a query named `write` on the empty ledger. -/
theorem C20_query_read_only_witness :
    "write" ≠ "read" ∧
    Query emptyLedger "write" ["m1", "x"]
      = (Except.error "Received unknown function query", emptyLedger) :=
  ⟨by decide, (C20_query_read_only emptyLedger "write" ["m1", "x"]).2.2.2.1 (by decide)⟩

/-- C21 (no out-of-range access in `init_marble`), evaluated: five non-empty
arguments pass the length check and the call ends in a panic at `args[5]`, an
index past the end of the list; this holds for every list of five non-empty
arguments.  No argument list makes `init_marble` succeed, and none makes it
touch the ledger. -/
theorem C21_index_past_the_end :
    (Marbles.init_marble Char.toLower emptyLedger fiveArgs).1
      = Marbles.Outcome.indexOutOfRange 5 5 ∧
    (∀ (lower : Char → Char) (stub : ChaincodeStub) (a0 a1 a2 a3 a4 : String),
      a0 ≠ "" → a1 ≠ "" → a2 ≠ "" → a3 ≠ "" → a4 ≠ "" →
      (Marbles.init_marble lower stub [a0, a1, a2, a3, a4]).1
        = Marbles.Outcome.indexOutOfRange 5 5) ∧
    (∀ (lower : Char → Char) (stub : ChaincodeStub) (args : List String) (p : String),
      (Marbles.init_marble lower stub args).1 ≠ Marbles.Outcome.returned (Except.ok p)) ∧
    (∀ (lower : Char → Char) (stub : ChaincodeStub) (args : List String),
      (Marbles.init_marble lower stub args).2 = stub) := by
  have hshape : ∀ (lower : Char → Char) (stub : ChaincodeStub) (args : List String),
      ((Marbles.init_marble lower stub args).1 = Marbles.Outcome.indexOutOfRange 5 5 ∨
        ∃ msg, (Marbles.init_marble lower stub args).1
          = Marbles.Outcome.returned (Except.error msg)) ∧
      (Marbles.init_marble lower stub args).2 = stub := by
    intro lower stub args
    by_cases hl : args.length = 5
    · rcases args with _ | ⟨a0, _ | ⟨a1, _ | ⟨a2, _ | ⟨a3, _ | ⟨a4, _ | ⟨a5, r⟩⟩⟩⟩⟩⟩ <;>
        simp at hl
      simp only [Marbles.init_marble, Marbles.index, List.length_cons, List.length_nil,
        List.get?]
      split_ifs
      all_goals first
        | exact ⟨Or.inl rfl, rfl⟩
        | exact ⟨Or.inr ⟨_, rfl⟩, rfl⟩
    · have hl2 : args.length ≠ 5 := hl
      have e : Marbles.init_marble lower stub args
          = (Marbles.Outcome.returned
              (Except.error "Incorrect number of arguments. Expecting 6"), stub) := by
        simp [Marbles.init_marble, hl2]
      rw [e]
      exact ⟨Or.inr ⟨_, rfl⟩, rfl⟩
  refine ⟨rfl, ?_, ?_, fun lower stub args => (hshape lower stub args).2⟩
  · intro lower stub a0 a1 a2 a3 a4 h0 h1 h2 h3 h4
    simp only [Marbles.init_marble, Marbles.index, length_le_zero_iff, h0, h1, h2, h3, h4,
      List.length_cons, List.length_nil, List.get?, if_false]
    simp
  · intro lower stub args p h
    rcases (hshape lower stub args).1 with h1 | ⟨msg, h1⟩ <;> rw [h1] at h <;> cases h

/-- Counterexample to C22 as stated: a record created under the key `abc` is
not stored under it after `Init`, which writes its test value there, and a
later create for `abc` succeeds instead of being rejected as a duplicate. -/
theorem C22_counterexample :
    (init_survey Char.toLower emptyLedger abcArgs).1 = Except.ok "" ∧
    abcLedger.state "abc" = some (surveyJSON "abc" "surveya" "cust1" 7 "great" "2024-01-01") ∧
    (Init "_opentrades" "\x7b\"open_trades\":null\x7d" abcLedger ["1"]).1 = Except.ok "" ∧
    (Init "_opentrades" "\x7b\"open_trades\":null\x7d" abcLedger ["1"]).2.state "abc"
      = some "1" ∧
    (init_survey Char.toLower
      (Init "_opentrades" "\x7b\"open_trades\":null\x7d" abcLedger ["1"]).2 abcArgs).1
      = Except.ok "" :=
  ⟨rfl, by decide, rfl, by decide, rfl⟩

/-- C22 (`Init` touches only its own keys), amended: for a single argument
that is an integer `Init` changes no key other than `abc`, the index key and
the key of the open trades, on any ledger; on a ledger that does not fail the
index is empty afterwards, and a create for a key other than these three is
rejected as a duplicate whenever the bytes the key held before `Init` decode
to a record with that key.  The key of the open trades, a constant the
repository does not declare, is taken to differ from the index key. -/
theorem C22_init_frame (lower : Char → Char) (openTradesStr emptyTrades : String)
    (stub : ChaincodeStub) (a : String) (n : Int) (hn : Atoi a = some n) :
    (∀ k, k ≠ "abc" → k ≠ surveyIndexStr → k ≠ openTradesStr →
      (Init openTradesStr emptyTrades stub [a]).2.state k = stub.state k) ∧
    (stub.reliable → openTradesStr ≠ surveyIndexStr →
      loadIndex (Init openTradesStr emptyTrades stub [a]).2 = [] ∧
      ∀ a0 a1 a2 a3 a4 a5, a0 ≠ "abc" → a0 ≠ surveyIndexStr → a0 ≠ openTradesStr →
        a0 ≠ "" → a1 ≠ "" → a2 ≠ "" → a3 ≠ "" → a4 ≠ "" → a5 ≠ "" → Atoi a3 ≠ none →
        (unmarshalSurvey ((stub.state a0).getD "") Survey.zero).Key = a0 →
        (init_survey lower (Init openTradesStr emptyTrades stub [a]).2
          [a0, a1, a2, a3, a4, a5]).1 = Except.error duplicateError) := by
  constructor
  · intro k hk1 hk2 hk3
    simp only [Init, hn, PutState]
    cases e1 : stub.putErr "abc" <;> cases e2 : stub.putErr surveyIndexStr <;>
      cases e3 : stub.putErr openTradesStr <;> simp [e1, e2, e3, hk1, hk2, hk3]
  · intro hr ht
    have ht2 : surveyIndexStr ≠ openTradesStr := fun h => ht h.symm
    have h1 := (hr "abc").2.1
    have h2 := (hr surveyIndexStr).2.1
    have h3 := (hr openTradesStr).2.1
    have hrel : (Init openTradesStr emptyTrades stub [a]).2.reliable := by
      intro k
      simpa [Init, hn, PutState, h1, h2, h3] using hr k
    refine ⟨?_, ?_⟩
    · simp [Init, hn, PutState, h1, h2, h3, loadIndex, ht2]
      decide
    · intro a0 a1 a2 a3 a4 a5 hk1 hk2 hk3 h0 h1' h2' h3' h4' h5' hs hd
      obtain ⟨score, hscore⟩ : ∃ score, Atoi a3 = some score := by
        cases h : Atoi a3 with
        | none => exact absurd h hs
        | some score => exact ⟨score, rfl⟩
      have hst : (Init openTradesStr emptyTrades stub [a]).2.state a0 = stub.state a0 := by
        simp [Init, hn, PutState, h1, h2, h3, hk1, hk2, hk3]
      rw [init_survey_valid lower _ a0 a1 a2 a3 a4 a5 score h0 h1' h2' h3' h4' h5' hscore hrel,
        hst, if_pos hd]
      rfl

/-- Witness of C22: `Init` on the ledger that holds the scenario record. -/
theorem C22_init_frame_witness :
    loadIndex scenarioLedger = ["m1"] ∧
    (Init "_opentrades" "\x7b\"open_trades\":null\x7d" scenarioLedger ["2"]).2.state "m1"
      = scenarioLedger.state "m1" ∧
    loadIndex (Init "_opentrades" "\x7b\"open_trades\":null\x7d" scenarioLedger ["2"]).2 = [] ∧
    (init_survey Char.toLower
      (Init "_opentrades" "\x7b\"open_trades\":null\x7d" scenarioLedger ["2"]).2
      scenarioArgs).1 = Except.error duplicateError :=
  have h := C22_init_frame Char.toLower "_opentrades" "\x7b\"open_trades\":null\x7d"
    scenarioLedger "2" 2 (by decide)
  have hr : scenarioLedger.reliable := fun _ => ⟨rfl, rfl, rfl⟩
  ⟨by decide, h.1 "m1" (by decide) (by decide) (by decide),
    (h.2 hr (by decide)).1,
    (h.2 hr (by decide)).2 "m1" "SurveyA" "cust1" "7" "great" "2024-01-01"
      (by decide) (by decide) (by decide) (by decide) (by decide) (by decide) (by decide)
      (by decide) (by decide) (by decide) (by decide)⟩

end NPS
